import Mathlib

/-!
# HdcpControl: the HDCP authentication supervisor

A shallow embedding of `ips/common/HdcpControl.cpp`.

* The member fields of the C++ class are the record `HdcpControl`.
* Everything the class does to the outside (DRM commands, sleeps, condition
  variables, the worker thread handle, the status callback) is appended to a
  log of `Event`s, so "issues exactly one call" is a statement about the log.
* What the outside answers is an oracle `Drm`: the return code (and, for the
  two read commands, the value written back) of the k-th command of each kind.
* `runHdcp` polls the shared flag `mStopped`.  `Drm.stopRaised t` says whether
  another thread has raised the flag by the time the log holds `t` events.
  Both callers of `runHdcp` hold `mMutex` and `stopHdcp` writes the flag under
  the same mutex, so a constantly-false `stopRaised` is the behaviour of the
  class as it stands; the oracle gives a meaning to "a stop is requested
  during the loop".
* `threadLoop` and `startHdcp` release the mutex in their timed waits.  A wait
  is a cut: `threadLoop` takes the wait status as an argument and runs on the
  state found when the wait returns; `startHdcp` stops at its wait and
  `startHdcpResume` is the rest.
* The constants of `HdcpControl.h` are the fields of `Config`.
* Histories of the object are lists of `Step`s run by `exec` from the
  constructor state: every call is one step, since every call works on the
  fields with the mutex held.  `StartedBy` records along a history which entry
  point took the controller out of the stopped state.
-/

namespace Hdcp

/-! ## The embedding -/

/-- A C pointer, seen only through comparison with `NULL`. -/
abbrev Ptr := Nat

/-- The null pointer. -/
def NULL : Ptr := 0

/-- The errno value behind `-ETIMEDOUT`, the status of a timed-out wait. -/
def ETIMEDOUT : Int := 110

/-- The constants `HdcpControl.h` defines for this file. -/
structure Config where
  HDCP_INLOOP_RETRY_NUMBER : Nat
  HDCP_INLOOP_RETRY_DELAY_US : Nat
  HDCP_VERIFICATION_DELAY_MS : Nat
  HDCP_AUTHENTICATION_DELAY_MS : Nat
  HDCP_AUTHENTICATION_TIMEOUT_MS : Nat
  HDCP_ASYNC_START_DELAY_MS : Nat
  deriving DecidableEq

/-- The strong pointer `mThread`: null, a created worker, or a worker that was run. -/
inductive ThreadRef
  | null
  | created
  | running
  deriving DecidableEq

/-- What the controller does to the outside world, in program order. -/
inductive Event
  | queryHdcp
  | enableHdcp
  | disableHdcp
  | getLinkStatus
  | usleep (us : Nat)
  | newThread
  | runThread
  | requestExitAndWait
  | waitStopped (ms : Nat)
  | waitCompleted (ms : Nat)
  | signalStopped
  | signalCompleted
  | callback (cb : Ptr) (authenticated : Bool) (userData : Ptr)
  deriving DecidableEq

/-- The answers of the outside world. -/
structure Drm where
  /-- Return code and `caps` of the k-th `DRM_PSB_QUERY_HDCP`. -/
  queryHdcp : Nat → Int × Nat
  /-- Return code of the k-th `DRM_PSB_ENABLE_HDCP`. -/
  enableHdcp : Nat → Int
  /-- Return code of the k-th `DRM_PSB_DISABLE_HDCP`. -/
  disableHdcp : Nat → Int
  /-- Return code and `match` of the k-th `DRM_PSB_GET_HDCP_LINK_STATUS`. -/
  getLinkStatus : Nat → Int × Nat
  /-- Whether another thread has raised `mStopped` by log time `t`. -/
  stopRaised : Nat → Bool

/-- The member fields of the class. -/
structure HdcpControl where
  mCallback : Ptr
  mUserData : Ptr
  mWaitForCompletion : Bool
  mStopped : Bool
  mAuthenticated : Bool
  mActionDelay : Nat
  mThread : ThreadRef
  deriving DecidableEq

/-- The controller together with the log of what it has done so far. -/
structure World where
  ctl : HdcpControl
  log : List Event
  deriving DecidableEq

/-- The constructor `HdcpControl::HdcpControl()`. -/
def init : World :=
  { ctl :=
      { mCallback := NULL, mUserData := NULL, mWaitForCompletion := false,
        mStopped := true, mAuthenticated := false, mActionDelay := 0,
        mThread := ThreadRef.null },
    log := [] }

/-- Append one event to the log. -/
def emit (e : Event) (w : World) : World :=
  { w with log := w.log ++ [e] }

/-- A read of the shared flag `mStopped` inside `runHdcp` sees a stop that another
thread has raised by now, that is by log time `w.log.length`. -/
def observeStop (env : Drm) (w : World) : World :=
  { w with ctl := { w.ctl with mStopped := w.ctl.mStopped || env.stopRaised w.log.length } }

/-- Embeds `HdcpControl::enableAuthentication`. -/
def enableAuthentication (env : Drm) (w : World) : Bool × World :=
  let ret := env.enableHdcp (w.log.count Event.enableHdcp)
  let w := emit Event.enableHdcp w
  if ret ≠ 0 then (false, w) else (true, w)

/-- Embeds `HdcpControl::disableAuthentication`. -/
def disableAuthentication (env : Drm) (w : World) : Bool × World :=
  let ret := env.disableHdcp (w.log.count Event.disableHdcp)
  let w := emit Event.disableHdcp w
  if ret ≠ 0 then (false, w) else (true, w)

/-- Embeds `HdcpControl::isHdcpSupported`. -/
def isHdcpSupported (env : Drm) (w : World) : Bool × World :=
  let r := env.queryHdcp (w.log.count Event.queryHdcp)
  let w := emit Event.queryHdcp w
  if r.1 ≠ 0 then (false, w)
  else if r.2 = 0 then (false, w)
  else (true, w)

/-- Embeds `HdcpControl::checkAuthenticated`. -/
def checkAuthenticated (env : Drm) (w : World) : Bool × World :=
  let r := env.getLinkStatus (w.log.count Event.getLinkStatus)
  let w := emit Event.getLinkStatus w
  if r.1 ≠ 0 then (false, w)
  else
    let w :=
      if r.2 ≠ 0 then { w with ctl := { w.ctl with mAuthenticated := true } }
      else { w with ctl := { w.ctl with mAuthenticated := false } }
    (w.ctl.mAuthenticated, w)

/-- Embeds `HdcpControl::preRunHdcp`. -/
def preRunHdcp (w : World) : Bool × World := (true, w)

/-- Embeds `HdcpControl::postRunHdcp`. -/
def postRunHdcp (w : World) : Bool × World := (true, w)

/-- The `for` loop of `runHdcp` with `n` iterations left and `ret` still `true`; the
result is the value of `ret` when the loop is left.  Each of the two reads of
`mStopped` goes through `observeStop`. -/
def runHdcpLoop (cfg : Config) (env : Drm) : Nat → World → Bool × World
  | 0, w => (true, w)
  | n + 1, w =>
    let w := observeStop env w
    if w.ctl.mStopped then (false, w)
    else
      let r := enableAuthentication env w
      if !r.1 then (false, r.2)
      else
        let c := checkAuthenticated env r.2
        if c.1 then (true, c.2)
        else
          let w := observeStop env c.2
          if w.ctl.mStopped then (false, w)
          else runHdcpLoop cfg env n (emit (Event.usleep cfg.HDCP_INLOOP_RETRY_DELAY_US) w)

/-- Embeds `HdcpControl::runHdcp`. -/
def runHdcp (cfg : Config) (env : Drm) (w : World) : Bool × World :=
  let w := (preRunHdcp w).2
  let r := runHdcpLoop cfg env cfg.HDCP_INLOOP_RETRY_NUMBER w
  let w := (postRunHdcp r.2).2
  (r.1, w)

/-- Embeds `HdcpControl::signalCompletion`. -/
def signalCompletion (w : World) : World :=
  if w.ctl.mWaitForCompletion then
    let w := emit Event.signalCompleted w
    { w with ctl := { w.ctl with mWaitForCompletion := false } }
  else w

/-- Embeds `HdcpControl::threadLoop`, one worker cycle; `err` is the status of the
timed wait on `mStoppedCondition`, and `w` the state when the wait returns. -/
def threadLoop (cfg : Config) (env : Drm) (err : Int) (w : World) : Bool × World :=
  let w := emit (Event.waitStopped w.ctl.mActionDelay) w
  if err ≠ -ETIMEDOUT then (false, signalCompletion w)
  else
    let r := if !w.ctl.mAuthenticated then runHdcp cfg env w
             else (true, (checkAuthenticated env w).2)
    let ret := r.1
    let w := r.2
    let w :=
      if w.ctl.mAuthenticated then
        { w with ctl := { w.ctl with mActionDelay := cfg.HDCP_VERIFICATION_DELAY_MS } }
      else
        { w with ctl := { w.ctl with mActionDelay := cfg.HDCP_AUTHENTICATION_DELAY_MS } }
    let w := if !ret || w.ctl.mAuthenticated then signalCompletion w else w
    let w :=
      if w.ctl.mCallback ≠ NULL then
        emit (Event.callback w.ctl.mCallback w.ctl.mAuthenticated w.ctl.mUserData) w
      else w
    (ret, w)

/-- How `startHdcp` leaves its first part: it returned a value, or it is
blocked in the timed wait on `mCompletedCondition`. -/
inductive StartOutcome
  | returned (b : Bool)
  | blocked
  deriving DecidableEq

/-- Embeds `HdcpControl::startHdcp` up to its wait; `alloc` says whether
`new HdcpControlThread` gave a non-null worker. -/
def startHdcp (cfg : Config) (env : Drm) (alloc : Bool) (w : World) : StartOutcome × World :=
  let s := isHdcpSupported env w
  if !s.1 then (StartOutcome.returned false, s.2)
  else
    let w := s.2
    if !w.ctl.mStopped then (StartOutcome.returned true, w)
    else
      let w := { w with ctl := { w.ctl with mStopped := false, mAuthenticated := false,
                                            mWaitForCompletion := false } }
      let w := emit Event.newThread w
      let w := { w with ctl := { w.ctl with
                  mThread := if alloc then ThreadRef.created else ThreadRef.null } }
      if w.ctl.mThread = ThreadRef.null then (StartOutcome.returned false, w)
      else
        let r := runHdcp cfg env w
        if !r.1 then
          (StartOutcome.returned false,
            { r.2 with ctl := { r.2.ctl with mStopped := true, mThread := ThreadRef.null } })
        else
          let w := r.2
          let w := { w with ctl := { w.ctl with mWaitForCompletion := !w.ctl.mAuthenticated } }
          let w :=
            if w.ctl.mAuthenticated then
              { w with ctl := { w.ctl with mActionDelay := cfg.HDCP_VERIFICATION_DELAY_MS } }
            else
              { w with ctl := { w.ctl with mActionDelay := cfg.HDCP_AUTHENTICATION_DELAY_MS } }
          let w := emit Event.runThread w
          let w := { w with ctl := { w.ctl with mThread := ThreadRef.running } }
          if !w.ctl.mWaitForCompletion then (StartOutcome.returned true, w)
          else (StartOutcome.blocked,
                 emit (Event.waitCompleted cfg.HDCP_AUTHENTICATION_TIMEOUT_MS) w)

/-- The rest of `startHdcp`, from the return of its wait (status `err`) on the
state `w` the other threads have left meanwhile. -/
def startHdcpResume (err : Int) (w : World) : Bool × World :=
  let _timedOut := decide (err = -ETIMEDOUT)
  let w := { w with ctl := { w.ctl with mWaitForCompletion := false } }
  (w.ctl.mAuthenticated, w)

/-- Embeds `HdcpControl::startHdcpAsync`; `propLen` is what `property_get` returns for
`debug.hwc.hdcp.enable` (default "1") and `propVal` is `atoi` of that value. -/
def startHdcpAsync (cfg : Config) (env : Drm) (propLen : Int) (propVal : Int) (alloc : Bool)
    (cb : Ptr) (userData : Ptr) (w : World) : Bool × World :=
  if propLen > 0 ∧ propVal = 0 then (false, w)
  else if cb = NULL ∨ userData = NULL then (false, w)
  else
    let s := isHdcpSupported env w
    if !s.1 then (false, s.2)
    else
      let w := s.2
      if !w.ctl.mStopped then (true, w)
      else
        let w := emit Event.newThread w
        let w := { w with ctl := { w.ctl with
                    mThread := if alloc then ThreadRef.created else ThreadRef.null } }
        if w.ctl.mThread = ThreadRef.null then (false, w)
        else
          let w := { w with ctl := { w.ctl with
                      mCallback := cb, mUserData := userData, mWaitForCompletion := false,
                      mAuthenticated := false, mStopped := false,
                      mActionDelay := cfg.HDCP_ASYNC_START_DELAY_MS } }
          let w := emit Event.runThread w
          let w := { w with ctl := { w.ctl with mThread := ThreadRef.running } }
          (true, w)

/-- Embeds `HdcpControl::stopHdcp`. -/
def stopHdcp (env : Drm) (w : World) : Bool × World :=
  if w.ctl.mStopped then (true, w)
  else
    let w := { w with ctl := { w.ctl with mStopped := true } }
    let w := emit Event.signalStopped w
    let w := { w with ctl := { w.ctl with mAuthenticated := false, mWaitForCompletion := false,
                                          mCallback := NULL, mUserData := NULL } }
    let w := (disableAuthentication env w).2
    let w :=
      if w.ctl.mThread ≠ ThreadRef.null then
        let w := emit Event.requestExitAndWait w
        { w with ctl := { w.ctl with mThread := ThreadRef.null } }
      else w
    (true, w)

/-! ## Derived notions and sample inputs -/

/-- The log of `k` complete iterations of the retry loop: enable, verify, settle. -/
def retryLog (cfg : Config) (k : Nat) : List Event :=
  (List.replicate k [Event.enableHdcp, Event.getLinkStatus,
    Event.usleep cfg.HDCP_INLOOP_RETRY_DELAY_US]).flatten

/-- The worker thread: one `threadLoop` per wait status, until a cycle returns false. -/
def workerCycles (cfg : Config) (env : Drm) : List Int → World → World
  | [], w => w
  | err :: rest, w =>
    let r := threadLoop cfg env err w
    if r.1 then workerCycles cfg env rest r.2 else r.2

/-- The arguments of one complete call of a start entry point. -/
inductive StartCall
  /-- A call of `startHdcp`; should it block, the worker runs `cycles` and the wait
  returns with status `err`. -/
  | sync (alloc : Bool) (cycles : List Int) (err : Int)
  /-- A call of `startHdcpAsync`. -/
  | async (propLen propVal : Int) (alloc : Bool) (cb userData : Ptr)

/-- One complete call of a start entry point, from entry to return: `startHdcp` (with the
worker cycles and the wait status of its wait, should it block) or `startHdcpAsync`. -/
def start (cfg : Config) (env : Drm) : StartCall → World → Bool × World
  | StartCall.sync alloc cycles err, w =>
    match startHdcp cfg env alloc w with
    | (StartOutcome.returned b, w1) => (b, w1)
    | (StartOutcome.blocked, w1) => startHdcpResume err (workerCycles cfg env cycles w1)
  | StartCall.async propLen propVal alloc cb userData, w =>
    startHdcpAsync cfg env propLen propVal alloc cb userData w

/-- The call passes the argument checks of its entry point: the property switch is
not off and both pointers are non-null (`startHdcp` has no such checks). -/
def StartCall.accepted : StartCall → Prop
  | StartCall.sync _ _ _ => True
  | StartCall.async propLen propVal _ cb userData =>
    ¬ (propLen > 0 ∧ propVal = 0) ∧ cb ≠ NULL ∧ userData ≠ NULL

/-- A sample configuration with a retry budget of 20. -/
def cfg20 : Config :=
  { HDCP_INLOOP_RETRY_NUMBER := 20, HDCP_INLOOP_RETRY_DELAY_US := 50000,
    HDCP_VERIFICATION_DELAY_MS := 2000, HDCP_AUTHENTICATION_DELAY_MS := 500,
    HDCP_AUTHENTICATION_TIMEOUT_MS := 5000, HDCP_ASYNC_START_DELAY_MS := 100 }

/-- A backend that supports HDCP, accepts every command, and never reports the link
authenticated; no stop is raised. -/
def drmDown : Drm :=
  { queryHdcp := fun _ => (0, 1), enableHdcp := fun _ => 0, disableHdcp := fun _ => 0,
    getLinkStatus := fun _ => (0, 0), stopRaised := fun _ => false }

/-- As `drmDown`, but the link reports authenticated from the fourth query on. -/
def drmUpAfter3 : Drm :=
  { drmDown with getLinkStatus := fun k => (0, if k < 3 then 0 else 1) }

/-- As `drmDown`, but every `DRM_PSB_ENABLE_HDCP` fails. -/
def drmEnableFails : Drm :=
  { drmDown with enableHdcp := fun _ => -1 }

/-- As `drmDown`, but a stop is raised once the log holds two events. -/
def drmStopMid : Drm :=
  { drmDown with stopRaised := fun t => decide (2 ≤ t) }

/-- As `drmDown`, but every `DRM_PSB_GET_HDCP_LINK_STATUS` fails. -/
def drmQueryFails : Drm :=
  { drmDown with getLinkStatus := fun _ => (-1, 0) }

/-- A running, not yet authenticated controller with an empty log. -/
def running : World :=
  { init with ctl := { init.ctl with mStopped := false, mThread := ThreadRef.running } }

/-- A running, authenticated controller with callback 7 and user data 9 registered. -/
def verifiedAsync : World :=
  { ctl := { mCallback := 7, mUserData := 9, mWaitForCompletion := false, mStopped := false,
             mAuthenticated := true, mActionDelay := 2000, mThread := ThreadRef.running },
    log := [] }

/-- The events that `runHdcp` can log: the enable command, the link-status query and
the settling sleep. -/
def Event.isRetry (cfg : Config) : Event → Bool
  | Event.enableHdcp => true
  | Event.getLinkStatus => true
  | Event.usleep us => decide (us = cfg.HDCP_INLOOP_RETRY_DELAY_US)
  | _ => false

/-- The invocations of the status callback. -/
def Event.isCallback : Event → Bool
  | Event.callback _ _ _ => true
  | _ => false

/-- The callback invocations of a log, in order. -/
def callbacks (log : List Event) : List Event :=
  log.filter Event.isCallback

/-- What a step built from the backend helpers leaves alone: every field but
`mStopped` and `mAuthenticated`, and the log up to new retry events. -/
def Frame (cfg : Config) (w w1 : World) : Prop :=
  w1.ctl.mCallback = w.ctl.mCallback ∧ w1.ctl.mUserData = w.ctl.mUserData ∧
  w1.ctl.mWaitForCompletion = w.ctl.mWaitForCompletion ∧
  w1.ctl.mActionDelay = w.ctl.mActionDelay ∧ w1.ctl.mThread = w.ctl.mThread ∧
  ∃ l, w1.log = w.log ++ l ∧ ∀ e ∈ l, Event.isRetry cfg e = true

/-- As `drmDown`, but the capability query returns zero capabilities. -/
def drmUnsupported : Drm :=
  { drmDown with queryHdcp := fun _ => (0, 0) }

/-- As `drmDown`, but the link reports authenticated at every query. -/
def drmUp : Drm :=
  { drmDown with getLinkStatus := fun _ => (0, 1) }

/-- The action of a worker cycle whose wait has timed out, with the value it leaves in
`ret`: `runHdcp` when not authenticated, a bare `checkAuthenticated` otherwise. -/
def cycleAction (cfg : Config) (env : Drm) (w : World) : Bool × World :=
  if !w.ctl.mAuthenticated then runHdcp cfg env w else (true, (checkAuthenticated env w).2)

/-- The calls that the threads of the program make on one controller, each made with
`mMutex` held; `startHdcp` comes in two parts, before and after its wait. -/
inductive Step
  | startHdcp (alloc : Bool)
  | startHdcpResume (err : Int)
  | startHdcpAsync (propLen propVal : Int) (alloc : Bool) (cb userData : Ptr)
  | stopHdcp
  | threadLoop (err : Int)

/-- The state after one call. -/
def step (cfg : Config) (env : Drm) : Step → World → World
  | Step.startHdcp alloc, w => (startHdcp cfg env alloc w).2
  | Step.startHdcpResume err, w => (startHdcpResume err w).2
  | Step.startHdcpAsync propLen propVal alloc cb userData, w =>
    (startHdcpAsync cfg env propLen propVal alloc cb userData w).2
  | Step.stopHdcp, w => (stopHdcp env w).2
  | Step.threadLoop err, w => (threadLoop cfg env err w).2

/-- The calls of the two start entry points. -/
def Step.isStart : Step → Bool
  | Step.startHdcp _ => true
  | Step.startHdcpAsync _ _ _ _ _ => true
  | _ => false

/-- The entry point that took the controller from stopped to running, if it is running. -/
inductive StartedBy
  | nobody
  | startHdcp
  | startHdcpAsync
  deriving DecidableEq

/-- The bookkeeping of `StartedBy` over one call: nobody once the controller is stopped,
the entry point of the call when the call took the controller out of stopped, and no
change otherwise. -/
def startedBy (cfg : Config) (env : Drm) (s : Step) (m : StartedBy) (w : World) : StartedBy :=
  if (step cfg env s w).ctl.mStopped then StartedBy.nobody
  else if w.ctl.mStopped then
    match s with
    | Step.startHdcp _ => StartedBy.startHdcp
    | Step.startHdcpAsync _ _ _ _ _ => StartedBy.startHdcpAsync
    | _ => m
  else m

/-- The state after a sequence of calls, in any interleaving of the threads. -/
def exec (cfg : Config) (env : Drm) : List Step → StartedBy × World → StartedBy × World
  | [], x => x
  | s :: rest, x => exec cfg env rest (startedBy cfg env s x.1 x.2, step cfg env s x.2)

/-- The facts about the fields that every call keeps: a stopped controller is not waited
for, is not authenticated and has no callback; callback and user data are null together;
a callback is there only after `startHdcpAsync` started the controller. -/
def Consistent (x : StartedBy × World) : Prop :=
  (x.2.ctl.mStopped = true →
    x.2.ctl.mWaitForCompletion = false ∧ x.2.ctl.mAuthenticated = false ∧
    x.2.ctl.mCallback = NULL) ∧
  (x.2.ctl.mCallback = NULL ↔ x.2.ctl.mUserData = NULL) ∧
  (x.2.ctl.mCallback ≠ NULL → x.1 = StartedBy.startHdcpAsync)

/-- A sample history: an asynchronous start with callback 7 and user data 9, then one
worker cycle whose wait times out. -/
def asyncThenCycle : List Step :=
  [Step.startHdcpAsync 1 1 true 7 9, Step.threadLoop (-ETIMEDOUT)]

/-- A state in which a caller of `startHdcp` is blocked: running, not authenticated,
waited for. -/
def awaited : World :=
  { running with ctl := { running.ctl with mWaitForCompletion := true } }

/-! ## The log of the retry loop -/

/-- One more iteration puts its three events in front. -/
theorem retryLog_succ (cfg : Config) (k : Nat) :
    retryLog cfg (k + 1) =
      [Event.enableHdcp, Event.getLinkStatus, Event.usleep cfg.HDCP_INLOOP_RETRY_DELAY_US]
        ++ retryLog cfg k := by
  simp [retryLog, List.replicate_succ]

/-- No iteration, no event. -/
theorem retryLog_zero (cfg : Config) : retryLog cfg 0 = [] := by
  simp [retryLog]

/-- Each iteration logs three events. -/
theorem retryLog_length (cfg : Config) (k : Nat) : (retryLog cfg k).length = 3 * k := by
  induction k with
  | zero => simp [retryLog_zero]
  | succ k ih => simp [retryLog_succ, ih]; omega

/-- Each iteration issues one enable command. -/
theorem retryLog_count_enableHdcp (cfg : Config) (k : Nat) :
    (retryLog cfg k).count Event.enableHdcp = k := by
  induction k with
  | zero => simp [retryLog_zero]
  | succ k ih => simp [retryLog_succ, ih]

/-- Each iteration issues one link-status query. -/
theorem retryLog_count_getLinkStatus (cfg : Config) (k : Nat) :
    (retryLog cfg k).count Event.getLinkStatus = k := by
  induction k with
  | zero => simp [retryLog_zero]
  | succ k ih => simp [retryLog_succ, ih]

/-- Each iteration sleeps once. -/
theorem retryLog_count_usleep (cfg : Config) (k : Nat) :
    (retryLog cfg k).count (Event.usleep cfg.HDCP_INLOOP_RETRY_DELAY_US) = k := by
  induction k with
  | zero => simp [retryLog_zero]
  | succ k ih => simp [retryLog_succ, ih]

/-! ## One iteration of the retry loop -/

/-- A read of `mStopped` changes nothing when no stop was raised. -/
theorem observeStop_quiet (env : Drm) (w : World)
    (h0 : env.stopRaised w.log.length = false) : observeStop env w = w := by
  obtain ⟨⟨cb, ud, wc, st, au, ad, th⟩, log⟩ := w
  simp_all [observeStop]

/-- A read of `mStopped` changes nothing when the flag is already set. -/
theorem observeStop_stopped (env : Drm) (w : World)
    (hs : w.ctl.mStopped = true) : observeStop env w = w := by
  obtain ⟨⟨cb, ud, wc, st, au, ad, th⟩, log⟩ := w
  simp_all [observeStop]

/-- An iteration that enables, fails to verify and sees no stop sleeps and hands over
to the next iteration; only `mAuthenticated` may have changed. -/
theorem runHdcpLoop_step (cfg : Config) (env : Drm) (n : Nat) (w : World)
    (hs : w.ctl.mStopped = false)
    (h0 : env.stopRaised w.log.length = false)
    (he : env.enableHdcp (w.log.count Event.enableHdcp) = 0)
    (hl : (env.getLinkStatus (w.log.count Event.getLinkStatus)).1 ≠ 0 ∨
          (env.getLinkStatus (w.log.count Event.getLinkStatus)).2 = 0)
    (h2 : env.stopRaised (w.log.length + 2) = false) :
    ∃ a : Bool, runHdcpLoop cfg env (n + 1) w =
      runHdcpLoop cfg env n
        { ctl := { w.ctl with mAuthenticated := a },
          log := w.log ++ [Event.enableHdcp, Event.getLinkStatus,
            Event.usleep cfg.HDCP_INLOOP_RETRY_DELAY_US] } := by
  rcases hl with hl | hl
  · refine ⟨w.ctl.mAuthenticated, ?_⟩
    simp [runHdcpLoop, observeStop, enableAuthentication, checkAuthenticated, emit, hs, h0, he,
      hl, h2]
  · by_cases hr : (env.getLinkStatus (w.log.count Event.getLinkStatus)).1 = 0
    · refine ⟨false, ?_⟩
      simp [runHdcpLoop, observeStop, enableAuthentication, checkAuthenticated, emit, hs, h0, he,
        hl, hr, h2]
    · refine ⟨w.ctl.mAuthenticated, ?_⟩
      simp [runHdcpLoop, observeStop, enableAuthentication, checkAuthenticated, emit, hs, h0, he,
        hr, h2]

/-- An iteration that finds `mStopped` set breaks at once with `ret = false`. -/
theorem runHdcpLoop_stopped (cfg : Config) (env : Drm) (n : Nat) (w : World)
    (hs : w.ctl.mStopped = true) : runHdcpLoop cfg env (n + 1) w = (false, w) := by
  simp [runHdcpLoop, observeStop_stopped env w hs, hs]

/-- An iteration whose enable command fails breaks with `ret = false` after it. -/
theorem runHdcpLoop_enable_fails (cfg : Config) (env : Drm) (n : Nat) (w : World)
    (hs : w.ctl.mStopped = false)
    (h0 : env.stopRaised w.log.length = false)
    (he : env.enableHdcp (w.log.count Event.enableHdcp) ≠ 0) :
    runHdcpLoop cfg env (n + 1) w = (false, { w with log := w.log ++ [Event.enableHdcp] }) := by
  simp [runHdcpLoop, observeStop_quiet env w h0, enableAuthentication, emit, hs, he]

/-- An iteration whose query reports a match breaks with `ret = true`. -/
theorem runHdcpLoop_authenticated (cfg : Config) (env : Drm) (n : Nat) (w : World)
    (hs : w.ctl.mStopped = false)
    (h0 : env.stopRaised w.log.length = false)
    (he : env.enableHdcp (w.log.count Event.enableHdcp) = 0)
    (hr : (env.getLinkStatus (w.log.count Event.getLinkStatus)).1 = 0)
    (hm : (env.getLinkStatus (w.log.count Event.getLinkStatus)).2 ≠ 0) :
    runHdcpLoop cfg env (n + 1) w =
      (true, { ctl := { w.ctl with mAuthenticated := true },
               log := w.log ++ [Event.enableHdcp, Event.getLinkStatus] }) := by
  simp [runHdcpLoop, observeStop, enableAuthentication, checkAuthenticated, emit, hs, h0, he,
    hr, hm]

/-- An iteration that fails to verify and then sees a stop breaks with `ret = false`
before the sleep. -/
theorem runHdcpLoop_stop_seen (cfg : Config) (env : Drm) (n : Nat) (w : World)
    (hs : w.ctl.mStopped = false)
    (h0 : env.stopRaised w.log.length = false)
    (he : env.enableHdcp (w.log.count Event.enableHdcp) = 0)
    (hl : (env.getLinkStatus (w.log.count Event.getLinkStatus)).1 ≠ 0 ∨
          (env.getLinkStatus (w.log.count Event.getLinkStatus)).2 = 0)
    (h2 : env.stopRaised (w.log.length + 2) = true) :
    ∃ a : Bool, runHdcpLoop cfg env (n + 1) w =
      (false, { ctl := { w.ctl with mAuthenticated := a, mStopped := true },
                log := w.log ++ [Event.enableHdcp, Event.getLinkStatus] }) := by
  rcases hl with hl | hl
  · refine ⟨w.ctl.mAuthenticated, ?_⟩
    simp [runHdcpLoop, observeStop, enableAuthentication, checkAuthenticated, emit, hs, h0, he,
      hl, h2]
  · by_cases hr : (env.getLinkStatus (w.log.count Event.getLinkStatus)).1 = 0
    · refine ⟨false, ?_⟩
      simp [runHdcpLoop, observeStop, enableAuthentication, checkAuthenticated, emit, hs, h0, he,
        hl, hr, h2]
    · refine ⟨w.ctl.mAuthenticated, ?_⟩
      simp [runHdcpLoop, observeStop, enableAuthentication, checkAuthenticated, emit, hs, h0, he,
        hr, h2]

/-! ## Runs of the retry loop -/

/-- After `k` iterations that enable, fail to verify and see no stop, the loop goes on
with `n` iterations left and the log of those `k` iterations. -/
theorem runHdcpLoop_failed_iterations (cfg : Config) (env : Drm) (k n : Nat) (w : World)
    (hs : w.ctl.mStopped = false)
    (hq : ∀ t, t < w.log.length + 3 * k → env.stopRaised t = false)
    (he : ∀ j, j < k → env.enableHdcp (w.log.count Event.enableHdcp + j) = 0)
    (hl : ∀ j, j < k →
      (env.getLinkStatus (w.log.count Event.getLinkStatus + j)).1 ≠ 0 ∨
      (env.getLinkStatus (w.log.count Event.getLinkStatus + j)).2 = 0) :
    ∃ a : Bool, runHdcpLoop cfg env (k + n) w =
      runHdcpLoop cfg env n
        { ctl := { w.ctl with mAuthenticated := a }, log := w.log ++ retryLog cfg k } := by
  induction k generalizing w with
  | zero =>
    refine ⟨w.ctl.mAuthenticated, ?_⟩
    simp [retryLog_zero]
  | succ k ih =>
    obtain ⟨a, ha⟩ := runHdcpLoop_step cfg env (k + n) w hs (hq _ (by omega))
      (by simpa using he 0 (by omega)) (by simpa using hl 0 (by omega)) (hq _ (by omega))
    have hw : k + 1 + n = k + n + 1 := by omega
    rw [hw, ha]
    obtain ⟨b, hb⟩ := ih
      { ctl := { w.ctl with mAuthenticated := a },
        log := w.log ++ [Event.enableHdcp, Event.getLinkStatus,
          Event.usleep cfg.HDCP_INLOOP_RETRY_DELAY_US] }
      (by simpa using hs)
      (by intro t ht; apply hq; simp at ht; omega)
      (by intro j hj; have := he (j + 1) (by omega)
          simpa [List.count_append, Nat.add_assoc, Nat.add_comm 1 j] using this)
      (by intro j hj; have := hl (j + 1) (by omega)
          simpa [List.count_append, Nat.add_assoc, Nat.add_comm 1 j] using this)
    refine ⟨b, ?_⟩
    rw [hb]
    simp [retryLog_succ]

/-- The pre and post hooks do nothing: `runHdcp` is its loop. -/
theorem runHdcp_eq (cfg : Config) (env : Drm) (w : World) :
    runHdcp cfg env w = runHdcpLoop cfg env cfg.HDCP_INLOOP_RETRY_NUMBER w := by
  simp [runHdcp, preRunHdcp, postRunHdcp]

/-- When all iterations enable and fail to verify, the loop runs to its end. -/
theorem runHdcp_all_iterations_fail (cfg : Config) (env : Drm) (w : World)
    (hs : w.ctl.mStopped = false)
    (hq : ∀ t, env.stopRaised t = false)
    (he : ∀ j, j < cfg.HDCP_INLOOP_RETRY_NUMBER →
      env.enableHdcp (w.log.count Event.enableHdcp + j) = 0)
    (hl : ∀ j, j < cfg.HDCP_INLOOP_RETRY_NUMBER →
      (env.getLinkStatus (w.log.count Event.getLinkStatus + j)).1 ≠ 0 ∨
      (env.getLinkStatus (w.log.count Event.getLinkStatus + j)).2 = 0) :
    ∃ a : Bool, runHdcp cfg env w =
      (true, { ctl := { w.ctl with mAuthenticated := a },
               log := w.log ++ retryLog cfg cfg.HDCP_INLOOP_RETRY_NUMBER }) := by
  obtain ⟨a, ha⟩ := runHdcpLoop_failed_iterations cfg env cfg.HDCP_INLOOP_RETRY_NUMBER 0 w hs
    (fun t _ => hq t) he hl
  refine ⟨a, ?_⟩
  rw [runHdcp_eq]
  simpa [runHdcpLoop] using ha

/-- With no stop in sight the loop returns false only after a failed enable command. -/
theorem runHdcpLoop_false_enable (cfg : Config) (env : Drm) (n : Nat) (w : World)
    (hs : w.ctl.mStopped = false)
    (hq : ∀ t, env.stopRaised t = false)
    (h : (runHdcpLoop cfg env n w).1 = false) :
    ∃ i, i < n ∧ env.enableHdcp (w.log.count Event.enableHdcp + i) ≠ 0 := by
  induction n generalizing w with
  | zero => simp [runHdcpLoop] at h
  | succ n ih =>
    by_cases he : env.enableHdcp (w.log.count Event.enableHdcp) = 0
    · by_cases hl : (env.getLinkStatus (w.log.count Event.getLinkStatus)).1 ≠ 0 ∨
          (env.getLinkStatus (w.log.count Event.getLinkStatus)).2 = 0
      · obtain ⟨a, ha⟩ := runHdcpLoop_step cfg env n w hs (hq _) he hl (hq _)
        rw [ha] at h
        obtain ⟨i, hi, hne⟩ := ih _ (by simpa using hs) h
        refine ⟨i + 1, by omega, ?_⟩
        simpa [List.count_append, Nat.add_assoc, Nat.add_comm 1 i] using hne
      · have hl2 := not_or.mp hl
        rw [runHdcpLoop_authenticated cfg env n w hs (hq _) he (not_not.mp hl2.1) hl2.2] at h
        simp at h
    · exact ⟨0, by omega, by simpa using he⟩

/-! ## Starting while running -/

/-- A successful capability query with non-zero capabilities reports support. -/
theorem isHdcpSupported_true (env : Drm) (w : World)
    (hr : (env.queryHdcp (w.log.count Event.queryHdcp)).1 = 0)
    (hc : (env.queryHdcp (w.log.count Event.queryHdcp)).2 ≠ 0) :
    isHdcpSupported env w = (true, { w with log := w.log ++ [Event.queryHdcp] }) := by
  simp [isHdcpSupported, emit, hr, hc]

/-- On a running controller `startHdcp` returns true right after the capability query. -/
theorem startHdcp_running (cfg : Config) (env : Drm) (alloc : Bool) (w : World)
    (hs : w.ctl.mStopped = false)
    (hr : (env.queryHdcp (w.log.count Event.queryHdcp)).1 = 0)
    (hc : (env.queryHdcp (w.log.count Event.queryHdcp)).2 ≠ 0) :
    startHdcp cfg env alloc w =
      (StartOutcome.returned true, { w with log := w.log ++ [Event.queryHdcp] }) := by
  simp [startHdcp, isHdcpSupported_true env w hr hc, hs]

/-- On a running controller an accepted `startHdcpAsync` returns true right after the
capability query. -/
theorem startHdcpAsync_running (cfg : Config) (env : Drm) (propLen propVal : Int)
    (alloc : Bool) (cb userData : Ptr) (w : World)
    (hs : w.ctl.mStopped = false)
    (hp : ¬ (propLen > 0 ∧ propVal = 0))
    (hcb : cb ≠ NULL) (hud : userData ≠ NULL)
    (hr : (env.queryHdcp (w.log.count Event.queryHdcp)).1 = 0)
    (hc : (env.queryHdcp (w.log.count Event.queryHdcp)).2 ≠ 0) :
    startHdcpAsync cfg env propLen propVal alloc cb userData w =
      (true, { w with log := w.log ++ [Event.queryHdcp] }) := by
  simp only [startHdcpAsync, if_neg hp, isHdcpSupported_true env w hr hc]
  simp [hcb, hud, hs]

/-! ## C1: the retry budget runs out -/

/-- C1, counterexample: with a budget of 20, no stop, every enable succeeding and every
verification reporting not authenticated, `runHdcp` returns true, not false. -/
theorem budget_exhausted_not_failure :
    1 ≤ cfg20.HDCP_INLOOP_RETRY_NUMBER ∧ running.ctl.mStopped = false ∧
    (∀ t, drmDown.stopRaised t = false) ∧
    (∀ k, drmDown.enableHdcp k = 0) ∧
    (∀ k, (drmDown.getLinkStatus k).2 = 0) ∧
    (runHdcp cfg20 drmDown running).1 = true := by
  refine ⟨by decide, rfl, fun _ => rfl, fun _ => rfl, fun _ => rfl, by decide⟩

/-- C1, amended: for every retry budget N >= 1 and every state with stopped = false, if no
stop is requested, every enableAuthentication succeeds and checkAuthenticated reports
not authenticated on all N iterations, then `runHdcp` returns true, its default return
value. -/
theorem runHdcp_budget_exhausted_returns_true (cfg : Config) (env : Drm) (w : World)
    (_hN : 1 ≤ cfg.HDCP_INLOOP_RETRY_NUMBER)
    (hs : w.ctl.mStopped = false)
    (hq : ∀ t, env.stopRaised t = false)
    (he : ∀ j, j < cfg.HDCP_INLOOP_RETRY_NUMBER →
      env.enableHdcp (w.log.count Event.enableHdcp + j) = 0)
    (hl : ∀ j, j < cfg.HDCP_INLOOP_RETRY_NUMBER →
      (env.getLinkStatus (w.log.count Event.getLinkStatus + j)).1 ≠ 0 ∨
      (env.getLinkStatus (w.log.count Event.getLinkStatus + j)).2 = 0) :
    (runHdcp cfg env w).1 = true := by
  obtain ⟨a, ha⟩ := runHdcp_all_iterations_fail cfg env w hs hq he hl
  simp [ha]

/-- C1, witness: the amended statement at a budget of 20. -/
theorem budget_exhausted_witness :
    (runHdcp cfg20 drmDown running).1 = true :=
  runHdcp_budget_exhausted_returns_true cfg20 drmDown running (by decide) rfl (fun _ => rfl)
    (fun _ _ => rfl) (fun _ _ => Or.inr rfl)

/-! ## C2: what ends the worker -/

/-- C2, counterexample: on a running controller a cycle whose sleep times out and whose
enable command fails returns false, with no stop anywhere. -/
theorem worker_terminated_by_enable_failure :
    running.ctl.mStopped = false ∧
    (∀ t, drmEnableFails.stopRaised t = false) ∧
    (threadLoop cfg20 drmEnableFails (-ETIMEDOUT) running).1 = false :=
  ⟨rfl, fun _ => rfl, by decide⟩

/-- On a controller that is not authenticated, an iteration that enables, fails to verify
and sees no stop changes no field: it logs enable, query and sleep and hands over. -/
theorem runHdcpLoop_step_unauthenticated (cfg : Config) (env : Drm) (n : Nat) (w : World)
    (hs : w.ctl.mStopped = false)
    (ha : w.ctl.mAuthenticated = false)
    (h0 : env.stopRaised w.log.length = false)
    (he : env.enableHdcp (w.log.count Event.enableHdcp) = 0)
    (hl : (env.getLinkStatus (w.log.count Event.getLinkStatus)).1 ≠ 0 ∨
          (env.getLinkStatus (w.log.count Event.getLinkStatus)).2 = 0)
    (h2 : env.stopRaised (w.log.length + 2) = false) :
    runHdcpLoop cfg env (n + 1) w =
      runHdcpLoop cfg env n
        { ctl := w.ctl,
          log := w.log ++ [Event.enableHdcp, Event.getLinkStatus,
            Event.usleep cfg.HDCP_INLOOP_RETRY_DELAY_US] } := by
  obtain ⟨⟨cb, ud, wc, st, au, ad, th⟩, log⟩ := w
  simp only at hs ha h0 he hl h2
  subst hs ha
  by_cases hr : (env.getLinkStatus (List.count Event.getLinkStatus log)).1 = 0
  · rcases hl with hl | hl
    · exact absurd hr hl
    · simp [runHdcpLoop, observeStop, enableAuthentication, checkAuthenticated, emit, h0, he,
        hl, hr, h2]
  · simp [runHdcpLoop, observeStop, enableAuthentication, checkAuthenticated, emit, h0, he,
      hr, h2]

/-- On a controller that is not authenticated, `k` iterations that enable, fail to verify
and see no stop change no field and log those `k` iterations. -/
theorem runHdcpLoop_failed_iterations_unauthenticated (cfg : Config) (env : Drm) (k n : Nat)
    (w : World)
    (hs : w.ctl.mStopped = false)
    (ha : w.ctl.mAuthenticated = false)
    (hq : ∀ t, env.stopRaised t = false)
    (hc : ∀ j, j < k →
      env.enableHdcp (w.log.count Event.enableHdcp + j) = 0 ∧
      ((env.getLinkStatus (w.log.count Event.getLinkStatus + j)).1 ≠ 0 ∨
       (env.getLinkStatus (w.log.count Event.getLinkStatus + j)).2 = 0)) :
    runHdcpLoop cfg env (k + n) w =
      runHdcpLoop cfg env n { ctl := w.ctl, log := w.log ++ retryLog cfg k } := by
  induction k generalizing w with
  | zero => simp [retryLog_zero]
  | succ k ih =>
    have hw : k + 1 + n = k + n + 1 := by omega
    rw [hw, runHdcpLoop_step_unauthenticated cfg env (k + n) w hs ha (hq _)
      (by simpa using (hc 0 (by omega)).1) (by simpa using (hc 0 (by omega)).2) (hq _)]
    have hrest := ih
      { ctl := w.ctl,
        log := w.log ++ [Event.enableHdcp, Event.getLinkStatus,
          Event.usleep cfg.HDCP_INLOOP_RETRY_DELAY_US] }
      hs ha
      (by
        intro j hj
        have := hc (j + 1) (by omega)
        simpa [List.count_append, Nat.add_assoc, Nat.add_comm 1 j] using this)
    rw [hrest]
    simp [retryLog_succ]

/-- With no stop in sight the loop returns false only when, after some iterations that
enabled and failed to verify, the enable command of the next iteration fails. -/
theorem runHdcpLoop_false_failed_enable (cfg : Config) (env : Drm) (n : Nat) (w : World)
    (hs : w.ctl.mStopped = false)
    (hq : ∀ t, env.stopRaised t = false)
    (h : (runHdcpLoop cfg env n w).1 = false) :
    ∃ i, i < n ∧
      (∀ j, j < i →
        env.enableHdcp (w.log.count Event.enableHdcp + j) = 0 ∧
        ((env.getLinkStatus (w.log.count Event.getLinkStatus + j)).1 ≠ 0 ∨
         (env.getLinkStatus (w.log.count Event.getLinkStatus + j)).2 = 0)) ∧
      env.enableHdcp (w.log.count Event.enableHdcp + i) ≠ 0 := by
  induction n generalizing w with
  | zero => simp [runHdcpLoop] at h
  | succ n ih =>
    by_cases he : env.enableHdcp (w.log.count Event.enableHdcp) = 0
    · by_cases hl : (env.getLinkStatus (w.log.count Event.getLinkStatus)).1 ≠ 0 ∨
          (env.getLinkStatus (w.log.count Event.getLinkStatus)).2 = 0
      · obtain ⟨a, ha⟩ := runHdcpLoop_step cfg env n w hs (hq _) he hl (hq _)
        rw [ha] at h
        obtain ⟨i, hi, hpre, hne⟩ := ih _ (by simpa using hs) h
        refine ⟨i + 1, by omega, ?_, ?_⟩
        · intro j hj
          cases j with
          | zero => exact ⟨by simpa using he, by simpa using hl⟩
          | succ j =>
            have := hpre j (by omega)
            simpa [List.count_append, Nat.add_assoc, Nat.add_comm 1 j] using this
        · simpa [List.count_append, Nat.add_assoc, Nat.add_comm 1 i] using hne
      · have hl2 := not_or.mp hl
        rw [runHdcpLoop_authenticated cfg env n w hs (hq _) he (not_not.mp hl2.1) hl2.2] at h
        simp at h
    · exact ⟨0, by omega, fun j hj => absurd hj (by omega), by simpa using he⟩

/-- A cycle that times out on a controller that is not authenticated returns what the
retry loop returns after the wait. -/
theorem threadLoop_timeout_ret (cfg : Config) (env : Drm) (w : World)
    (ha : w.ctl.mAuthenticated = false) :
    (threadLoop cfg env (-ETIMEDOUT) w).1 =
      (runHdcpLoop cfg env cfg.HDCP_INLOOP_RETRY_NUMBER
        { ctl := w.ctl, log := w.log ++ [Event.waitStopped w.ctl.mActionDelay] }).1 := by
  simp [threadLoop, emit, ha, runHdcp_eq]

/-- A cycle that times out on a controller that is not authenticated, and whose
`runHdcp` returns false without touching a field: it sets the authentication delay, wakes
a waiting caller, calls the callback with false and returns false. -/
theorem threadLoop_of_failed_runHdcp (cfg : Config) (env : Drm) (w : World) (l : List Event)
    (ha : w.ctl.mAuthenticated = false)
    (h : runHdcp cfg env
        { ctl := w.ctl, log := w.log ++ [Event.waitStopped w.ctl.mActionDelay] } =
      (false, { ctl := w.ctl, log := l })) :
    threadLoop cfg env (-ETIMEDOUT) w =
      (false,
        { ctl := { w.ctl with mWaitForCompletion := false,
                              mActionDelay := cfg.HDCP_AUTHENTICATION_DELAY_MS },
          log := l ++
            (if w.ctl.mWaitForCompletion then [Event.signalCompleted] else []) ++
            (if w.ctl.mCallback ≠ NULL
              then [Event.callback w.ctl.mCallback false w.ctl.mUserData] else []) }) := by
  simp only [threadLoop, emit, h]
  obtain ⟨⟨cb, ud, wc, st, au, ad, th⟩, log⟩ := w
  simp only at ha
  subst ha
  cases wc <;> by_cases hcb : cb = NULL <;> simp [signalCompletion, emit, hcb]

/-- The whole cycle when, after `i` iterations that enabled and failed to verify, the
enable command of iteration `i + 1` fails. -/
theorem threadLoop_enable_fails (cfg : Config) (env : Drm) (w : World) (i : Nat)
    (hs : w.ctl.mStopped = false)
    (hq : ∀ t, env.stopRaised t = false)
    (hi : i < cfg.HDCP_INLOOP_RETRY_NUMBER)
    (ha : w.ctl.mAuthenticated = false)
    (hc : ∀ j, j < i →
      env.enableHdcp (w.log.count Event.enableHdcp + j) = 0 ∧
      ((env.getLinkStatus (w.log.count Event.getLinkStatus + j)).1 ≠ 0 ∨
       (env.getLinkStatus (w.log.count Event.getLinkStatus + j)).2 = 0))
    (hf : env.enableHdcp (w.log.count Event.enableHdcp + i) ≠ 0) :
    threadLoop cfg env (-ETIMEDOUT) w =
      (false,
        { ctl := { w.ctl with mWaitForCompletion := false,
                              mActionDelay := cfg.HDCP_AUTHENTICATION_DELAY_MS },
          log := w.log ++ [Event.waitStopped w.ctl.mActionDelay] ++
            (List.replicate i [Event.enableHdcp, Event.getLinkStatus,
              Event.usleep cfg.HDCP_INLOOP_RETRY_DELAY_US]).flatten ++
            [Event.enableHdcp] ++
            (if w.ctl.mWaitForCompletion then [Event.signalCompleted] else []) ++
            (if w.ctl.mCallback ≠ NULL
              then [Event.callback w.ctl.mCallback false w.ctl.mUserData] else []) }) := by
  obtain ⟨m, hm⟩ : ∃ m, cfg.HDCP_INLOOP_RETRY_NUMBER = i + (m + 1) :=
    ⟨cfg.HDCP_INLOOP_RETRY_NUMBER - i - 1, by omega⟩
  have h1 := runHdcpLoop_failed_iterations_unauthenticated cfg env i (m + 1)
    { ctl := w.ctl, log := w.log ++ [Event.waitStopped w.ctl.mActionDelay] }
    hs ha hq (by simpa using hc)
  have h2 := runHdcpLoop_enable_fails cfg env m
    { ctl := w.ctl,
      log := w.log ++ [Event.waitStopped w.ctl.mActionDelay] ++ retryLog cfg i }
    hs (hq _) (by simpa [retryLog_count_enableHdcp] using hf)
  have h3 : runHdcp cfg env
      { ctl := w.ctl, log := w.log ++ [Event.waitStopped w.ctl.mActionDelay] } =
      (false,
        { ctl := w.ctl,
          log := w.log ++ [Event.waitStopped w.ctl.mActionDelay] ++ retryLog cfg i ++
            [Event.enableHdcp] }) := by
    rw [runHdcp_eq, hm, h1, h2]
  rw [threadLoop_of_failed_runHdcp cfg env w _ ha h3]
  rfl

/-- C2, amended: on a state with stopped = false and with no stop requested, a worker cycle
whose sleep times out returns false exactly when the controller was not authenticated and,
after some iterations of the retry loop that each enabled and verified as not
authenticated, the enable command issued in the next iteration fails; in every other case
it returns true.  In that case the cycle logs its wait, those iterations and the failing
enable, sets the action delay to the authentication delay, wakes a waiting caller, calls
the callback with false and returns false, which ends the worker.  A cycle whose sleep
does not time out returns false. -/
theorem threadLoop_false_only_by_enable_failure (cfg : Config) (env : Drm) (w : World)
    (hs : w.ctl.mStopped = false)
    (hq : ∀ t, env.stopRaised t = false) :
    ((threadLoop cfg env (-ETIMEDOUT) w).1 = false ↔
      (w.ctl.mAuthenticated = false ∧
        ∃ i, i < cfg.HDCP_INLOOP_RETRY_NUMBER ∧
          (∀ j, j < i →
            env.enableHdcp (w.log.count Event.enableHdcp + j) = 0 ∧
            ((env.getLinkStatus (w.log.count Event.getLinkStatus + j)).1 ≠ 0 ∨
             (env.getLinkStatus (w.log.count Event.getLinkStatus + j)).2 = 0)) ∧
          env.enableHdcp (w.log.count Event.enableHdcp + i) ≠ 0)) ∧
    (∀ i, i < cfg.HDCP_INLOOP_RETRY_NUMBER → w.ctl.mAuthenticated = false →
      (∀ j, j < i →
        env.enableHdcp (w.log.count Event.enableHdcp + j) = 0 ∧
        ((env.getLinkStatus (w.log.count Event.getLinkStatus + j)).1 ≠ 0 ∨
         (env.getLinkStatus (w.log.count Event.getLinkStatus + j)).2 = 0)) →
      env.enableHdcp (w.log.count Event.enableHdcp + i) ≠ 0 →
      threadLoop cfg env (-ETIMEDOUT) w =
        (false,
          { ctl := { w.ctl with mWaitForCompletion := false,
                                mActionDelay := cfg.HDCP_AUTHENTICATION_DELAY_MS },
            log := w.log ++ [Event.waitStopped w.ctl.mActionDelay] ++
              (List.replicate i [Event.enableHdcp, Event.getLinkStatus,
                Event.usleep cfg.HDCP_INLOOP_RETRY_DELAY_US]).flatten ++
              [Event.enableHdcp] ++
              (if w.ctl.mWaitForCompletion then [Event.signalCompleted] else []) ++
              (if w.ctl.mCallback ≠ NULL
                then [Event.callback w.ctl.mCallback false w.ctl.mUserData] else []) })) ∧
    (∀ err : Int, err ≠ -ETIMEDOUT → (threadLoop cfg env err w).1 = false) := by
  refine ⟨⟨?_, ?_⟩, ?_, ?_⟩
  · intro hret
    cases hau : w.ctl.mAuthenticated with
    | true =>
      have : (threadLoop cfg env (-ETIMEDOUT) w).1 = true := by
        simp [threadLoop, emit, hau]
      rw [this] at hret
      exact absurd hret (by simp)
    | false =>
      refine ⟨rfl, ?_⟩
      rw [threadLoop_timeout_ret cfg env w hau] at hret
      obtain ⟨i, hi, hpre, hne⟩ := runHdcpLoop_false_failed_enable cfg env _
        { ctl := w.ctl, log := w.log ++ [Event.waitStopped w.ctl.mActionDelay] } hs hq hret
      exact ⟨i, hi, by simpa using hpre, by simpa using hne⟩
  · rintro ⟨hau, i, hi, hpre, hne⟩
    rw [threadLoop_enable_fails cfg env w i hs hq hi hau hpre hne]
  · intro i hi hau hpre hne
    exact threadLoop_enable_fails cfg env w i hs hq hi hau hpre hne
  · intro err herr
    simp [threadLoop, herr]

/-- C2, witness: the amended statement at a backend whose enable command fails. -/
theorem worker_cycle_witness :
    ((threadLoop cfg20 drmEnableFails (-ETIMEDOUT) running).1 = false ↔
      (running.ctl.mAuthenticated = false ∧
        ∃ i, i < cfg20.HDCP_INLOOP_RETRY_NUMBER ∧
          (∀ j, j < i →
            drmEnableFails.enableHdcp (running.log.count Event.enableHdcp + j) = 0 ∧
            ((drmEnableFails.getLinkStatus
                (running.log.count Event.getLinkStatus + j)).1 ≠ 0 ∨
             (drmEnableFails.getLinkStatus
                (running.log.count Event.getLinkStatus + j)).2 = 0)) ∧
          drmEnableFails.enableHdcp (running.log.count Event.enableHdcp + i) ≠ 0)) ∧
    threadLoop cfg20 drmEnableFails (-ETIMEDOUT) running =
      (false,
        { ctl := { running.ctl with mWaitForCompletion := false,
                                    mActionDelay := cfg20.HDCP_AUTHENTICATION_DELAY_MS },
          log := running.log ++ [Event.waitStopped running.ctl.mActionDelay] ++
            (List.replicate 0 [Event.enableHdcp, Event.getLinkStatus,
              Event.usleep cfg20.HDCP_INLOOP_RETRY_DELAY_US]).flatten ++
            [Event.enableHdcp] ++
            (if running.ctl.mWaitForCompletion then [Event.signalCompleted] else []) ++
            (if running.ctl.mCallback ≠ NULL
              then [Event.callback running.ctl.mCallback false running.ctl.mUserData]
              else []) }) ∧
    (threadLoop cfg20 drmEnableFails 0 running).1 = false :=
  ⟨(threadLoop_false_only_by_enable_failure cfg20 drmEnableFails running rfl
      (fun _ => rfl)).1,
   (threadLoop_false_only_by_enable_failure cfg20 drmEnableFails running rfl
      (fun _ => rfl)).2.1 0 (by decide) rfl (fun j hj => absurd hj (by omega)) (by decide),
   (threadLoop_false_only_by_enable_failure cfg20 drmEnableFails running rfl
      (fun _ => rfl)).2.2 0 (by decide)⟩

/-! ## C3: a failing link-status query -/

/-- C3, the code at the failing input: on an authenticated controller a failing link-status
query makes `checkAuthenticated` return false but leaves `mAuthenticated` true, so the
re-verification cycle ends authenticated, keeps the verification delay and calls the
callback with true. -/
theorem checkAuthenticated_query_failure_keeps_flag :
    (checkAuthenticated drmQueryFails verifiedAsync).1 = false ∧
    (checkAuthenticated drmQueryFails verifiedAsync).2.ctl.mAuthenticated = true ∧
    threadLoop cfg20 drmQueryFails (-ETIMEDOUT) verifiedAsync =
      (true,
        { ctl := verifiedAsync.ctl,
          log := [Event.waitStopped 2000, Event.getLinkStatus, Event.callback 7 true 9] }) := by
  decide

/-! ## C4: the retry bound -/

/-- C4: if stopped stays false, every enable succeeds and every verification reports not
authenticated, one `runHdcp` logs exactly N times enable, query, sleep, in this order:
N enable commands and N link-status queries, strictly alternating. -/
theorem runHdcp_retry_bound (cfg : Config) (env : Drm) (w : World)
    (hs : w.ctl.mStopped = false)
    (hq : ∀ t, env.stopRaised t = false)
    (he : ∀ j, j < cfg.HDCP_INLOOP_RETRY_NUMBER →
      env.enableHdcp (w.log.count Event.enableHdcp + j) = 0)
    (hl : ∀ j, j < cfg.HDCP_INLOOP_RETRY_NUMBER →
      (env.getLinkStatus (w.log.count Event.getLinkStatus + j)).1 ≠ 0 ∨
      (env.getLinkStatus (w.log.count Event.getLinkStatus + j)).2 = 0) :
    (runHdcp cfg env w).2.log =
      w.log ++ (List.replicate cfg.HDCP_INLOOP_RETRY_NUMBER
        [Event.enableHdcp, Event.getLinkStatus,
          Event.usleep cfg.HDCP_INLOOP_RETRY_DELAY_US]).flatten ∧
    (runHdcp cfg env w).2.log.count Event.enableHdcp =
      w.log.count Event.enableHdcp + cfg.HDCP_INLOOP_RETRY_NUMBER ∧
    (runHdcp cfg env w).2.log.count Event.getLinkStatus =
      w.log.count Event.getLinkStatus + cfg.HDCP_INLOOP_RETRY_NUMBER := by
  obtain ⟨a, ha⟩ := runHdcp_all_iterations_fail cfg env w hs hq he hl
  simp [ha, retryLog_count_enableHdcp, retryLog_count_getLinkStatus]
  rfl

/-- C4, witness: the retry bound at a budget of 20. -/
theorem retry_bound_witness :
    (runHdcp cfg20 drmDown running).2.log =
      running.log ++ (List.replicate cfg20.HDCP_INLOOP_RETRY_NUMBER
        [Event.enableHdcp, Event.getLinkStatus,
          Event.usleep cfg20.HDCP_INLOOP_RETRY_DELAY_US]).flatten ∧
    (runHdcp cfg20 drmDown running).2.log.count Event.enableHdcp =
      running.log.count Event.enableHdcp + cfg20.HDCP_INLOOP_RETRY_NUMBER ∧
    (runHdcp cfg20 drmDown running).2.log.count Event.getLinkStatus =
      running.log.count Event.getLinkStatus + cfg20.HDCP_INLOOP_RETRY_NUMBER :=
  runHdcp_retry_bound cfg20 drmDown running rfl (fun _ => rfl) (fun _ _ => rfl)
    (fun _ _ => Or.inr rfl)

/-! ## C5: eventual success -/

/-- C5: for k < N, if stopped stays false, every enable succeeds, and verification reports
not authenticated k times and authenticated on call k + 1, then `runHdcp` returns true
after k full iterations followed by one enable and one query: k + 1 enables, k + 1
queries, k sleeps, none after the last query; `mAuthenticated` is true and no other
field has changed. -/
theorem runHdcp_eventual_success (cfg : Config) (env : Drm) (w : World) (k : Nat)
    (hk : k < cfg.HDCP_INLOOP_RETRY_NUMBER)
    (hs : w.ctl.mStopped = false)
    (hq : ∀ t, env.stopRaised t = false)
    (he : ∀ j, j ≤ k → env.enableHdcp (w.log.count Event.enableHdcp + j) = 0)
    (hl : ∀ j, j < k →
      (env.getLinkStatus (w.log.count Event.getLinkStatus + j)).1 ≠ 0 ∨
      (env.getLinkStatus (w.log.count Event.getLinkStatus + j)).2 = 0)
    (hr : (env.getLinkStatus (w.log.count Event.getLinkStatus + k)).1 = 0)
    (hm : (env.getLinkStatus (w.log.count Event.getLinkStatus + k)).2 ≠ 0) :
    (runHdcp cfg env w).1 = true ∧
    (runHdcp cfg env w).2.log =
      w.log ++ (List.replicate k [Event.enableHdcp, Event.getLinkStatus,
          Event.usleep cfg.HDCP_INLOOP_RETRY_DELAY_US]).flatten
        ++ [Event.enableHdcp, Event.getLinkStatus] ∧
    (runHdcp cfg env w).2.log.count Event.enableHdcp = w.log.count Event.enableHdcp + (k + 1) ∧
    (runHdcp cfg env w).2.log.count Event.getLinkStatus =
      w.log.count Event.getLinkStatus + (k + 1) ∧
    (runHdcp cfg env w).2.log.count (Event.usleep cfg.HDCP_INLOOP_RETRY_DELAY_US) =
      w.log.count (Event.usleep cfg.HDCP_INLOOP_RETRY_DELAY_US) + k ∧
    (runHdcp cfg env w).2.ctl = { w.ctl with mAuthenticated := true } := by
  obtain ⟨m, hm1⟩ : ∃ m, cfg.HDCP_INLOOP_RETRY_NUMBER = k + (m + 1) :=
    ⟨cfg.HDCP_INLOOP_RETRY_NUMBER - k - 1, by omega⟩
  obtain ⟨a, ha⟩ := runHdcpLoop_failed_iterations cfg env k (m + 1) w hs (fun t _ => hq t)
    (fun j hj => he j (by omega)) hl
  have hfin := runHdcpLoop_authenticated cfg env m
    { ctl := { w.ctl with mAuthenticated := a }, log := w.log ++ retryLog cfg k }
    (by simpa using hs) (hq _)
    (by simpa [retryLog_count_enableHdcp] using he k (by omega))
    (by simpa [retryLog_count_getLinkStatus] using hr)
    (by simpa [retryLog_count_getLinkStatus] using hm)
  rw [runHdcp_eq, hm1, ha, hfin]
  simp [retryLog_count_enableHdcp, retryLog_count_getLinkStatus, retryLog_count_usleep]
  rfl

/-- C5, witness: k = 3 gives four iterations. -/
theorem eventual_success_witness :
    (runHdcp cfg20 drmUpAfter3 running).1 = true ∧
    (runHdcp cfg20 drmUpAfter3 running).2.log =
      running.log ++ (List.replicate 3 [Event.enableHdcp, Event.getLinkStatus,
          Event.usleep cfg20.HDCP_INLOOP_RETRY_DELAY_US]).flatten
        ++ [Event.enableHdcp, Event.getLinkStatus] ∧
    (runHdcp cfg20 drmUpAfter3 running).2.log.count Event.enableHdcp =
      running.log.count Event.enableHdcp + (3 + 1) ∧
    (runHdcp cfg20 drmUpAfter3 running).2.log.count Event.getLinkStatus =
      running.log.count Event.getLinkStatus + (3 + 1) ∧
    (runHdcp cfg20 drmUpAfter3 running).2.log.count
        (Event.usleep cfg20.HDCP_INLOOP_RETRY_DELAY_US) =
      running.log.count (Event.usleep cfg20.HDCP_INLOOP_RETRY_DELAY_US) + 3 ∧
    (runHdcp cfg20 drmUpAfter3 running).2.ctl = { running.ctl with mAuthenticated := true } :=
  runHdcp_eventual_success cfg20 drmUpAfter3 running 3 (by decide) rfl (fun _ => rfl)
    (fun _ _ => rfl) (by decide) rfl (by decide)

/-! ## C6: cancellation -/

/-- C6: with N >= 1, `runHdcp` on a stopped controller returns false and changes nothing,
log included; and if, after i clean failing iterations, a stop is raised by the time
iteration i + 1 has failed to verify, `runHdcp` returns false with the query of that
iteration as its last event: no sleep and no further enable. -/
theorem runHdcp_cancellation (cfg : Config) (env : Drm) :
    (∀ w : World, 1 ≤ cfg.HDCP_INLOOP_RETRY_NUMBER → w.ctl.mStopped = true →
      runHdcp cfg env w = (false, w)) ∧
    (∀ (w : World) (i : Nat), i < cfg.HDCP_INLOOP_RETRY_NUMBER → w.ctl.mStopped = false →
      (∀ t, t ≤ w.log.length + 3 * i → env.stopRaised t = false) →
      (∀ j, j ≤ i → env.enableHdcp (w.log.count Event.enableHdcp + j) = 0) →
      (∀ j, j ≤ i →
        (env.getLinkStatus (w.log.count Event.getLinkStatus + j)).1 ≠ 0 ∨
        (env.getLinkStatus (w.log.count Event.getLinkStatus + j)).2 = 0) →
      env.stopRaised (w.log.length + 3 * i + 2) = true →
      (runHdcp cfg env w).1 = false ∧
      (runHdcp cfg env w).2.ctl.mStopped = true ∧
      (runHdcp cfg env w).2.log =
        w.log ++ (List.replicate i [Event.enableHdcp, Event.getLinkStatus,
            Event.usleep cfg.HDCP_INLOOP_RETRY_DELAY_US]).flatten
          ++ [Event.enableHdcp, Event.getLinkStatus]) := by
  constructor
  · intro w hN hs
    obtain ⟨m, hm⟩ : ∃ m, cfg.HDCP_INLOOP_RETRY_NUMBER = m + 1 :=
      ⟨cfg.HDCP_INLOOP_RETRY_NUMBER - 1, by omega⟩
    rw [runHdcp_eq, hm, runHdcpLoop_stopped cfg env m w hs]
  · intro w i hi hs hq he hl h2
    obtain ⟨m, hm1⟩ : ∃ m, cfg.HDCP_INLOOP_RETRY_NUMBER = i + (m + 1) :=
    ⟨cfg.HDCP_INLOOP_RETRY_NUMBER - i - 1, by omega⟩
    obtain ⟨a, ha⟩ := runHdcpLoop_failed_iterations cfg env i (m + 1) w hs
      (fun t ht => hq t (by omega)) (fun j hj => he j (by omega)) (fun j hj => hl j (by omega))
    obtain ⟨b, hb⟩ := runHdcpLoop_stop_seen cfg env m
      { ctl := { w.ctl with mAuthenticated := a }, log := w.log ++ retryLog cfg i }
      (by simpa using hs)
      (by simpa [retryLog_length] using hq _ (Nat.le_refl _))
      (by simpa [retryLog_count_enableHdcp] using he i (Nat.le_refl _))
      (by simpa [retryLog_count_getLinkStatus] using hl i (Nat.le_refl _))
      (by simpa [retryLog_length] using h2)
    rw [runHdcp_eq, hm1, ha, hb]
    simp
    rfl

/-- C6, witness: a stopped controller, and a stop raised during the first iteration. -/
theorem cancellation_witness :
    runHdcp cfg20 drmStopMid init = (false, init) ∧
    ((runHdcp cfg20 drmStopMid running).1 = false ∧
      (runHdcp cfg20 drmStopMid running).2.ctl.mStopped = true ∧
      (runHdcp cfg20 drmStopMid running).2.log =
        running.log ++ (List.replicate 0 [Event.enableHdcp, Event.getLinkStatus,
            Event.usleep cfg20.HDCP_INLOOP_RETRY_DELAY_US]).flatten
          ++ [Event.enableHdcp, Event.getLinkStatus]) :=
  ⟨(runHdcp_cancellation cfg20 drmStopMid).1 init (by decide) rfl,
   (runHdcp_cancellation cfg20 drmStopMid).2 running 0 (by decide) rfl (by decide)
     (fun _ _ => rfl) (fun _ _ => Or.inr rfl) rfl⟩

/-! ## C7: a failing enable command -/

/-- C7: for i < N, if stopped stays false, the first i iterations enable and fail to
verify, and the enable command of iteration i + 1 fails, then `runHdcp` returns false
with that enable as its last event: i + 1 enable commands and i queries. -/
theorem runHdcp_enable_failure (cfg : Config) (env : Drm) (w : World) (i : Nat)
    (hi : i < cfg.HDCP_INLOOP_RETRY_NUMBER)
    (hs : w.ctl.mStopped = false)
    (hq : ∀ t, env.stopRaised t = false)
    (he : ∀ j, j < i → env.enableHdcp (w.log.count Event.enableHdcp + j) = 0)
    (hl : ∀ j, j < i →
      (env.getLinkStatus (w.log.count Event.getLinkStatus + j)).1 ≠ 0 ∨
      (env.getLinkStatus (w.log.count Event.getLinkStatus + j)).2 = 0)
    (hf : env.enableHdcp (w.log.count Event.enableHdcp + i) ≠ 0) :
    (runHdcp cfg env w).1 = false ∧
    (runHdcp cfg env w).2.log =
      w.log ++ (List.replicate i [Event.enableHdcp, Event.getLinkStatus,
          Event.usleep cfg.HDCP_INLOOP_RETRY_DELAY_US]).flatten ++ [Event.enableHdcp] ∧
    (runHdcp cfg env w).2.log.count Event.enableHdcp = w.log.count Event.enableHdcp + (i + 1) ∧
    (runHdcp cfg env w).2.log.count Event.getLinkStatus =
      w.log.count Event.getLinkStatus + i := by
  obtain ⟨m, hm1⟩ : ∃ m, cfg.HDCP_INLOOP_RETRY_NUMBER = i + (m + 1) :=
    ⟨cfg.HDCP_INLOOP_RETRY_NUMBER - i - 1, by omega⟩
  obtain ⟨a, ha⟩ := runHdcpLoop_failed_iterations cfg env i (m + 1) w hs (fun t _ => hq t) he hl
  have hfin := runHdcpLoop_enable_fails cfg env m
    { ctl := { w.ctl with mAuthenticated := a }, log := w.log ++ retryLog cfg i }
    (by simpa using hs) (hq _)
    (by simpa [retryLog_count_enableHdcp] using hf)
  rw [runHdcp_eq, hm1, ha, hfin]
  simp [retryLog_count_enableHdcp, retryLog_count_getLinkStatus]
  rfl

/-- C7, witness: the first enable command fails. -/
theorem enable_failure_witness :
    (runHdcp cfg20 drmEnableFails running).1 = false ∧
    (runHdcp cfg20 drmEnableFails running).2.log =
      running.log ++ (List.replicate 0 [Event.enableHdcp, Event.getLinkStatus,
          Event.usleep cfg20.HDCP_INLOOP_RETRY_DELAY_US]).flatten ++ [Event.enableHdcp] ∧
    (runHdcp cfg20 drmEnableFails running).2.log.count Event.enableHdcp =
      running.log.count Event.enableHdcp + (0 + 1) ∧
    (runHdcp cfg20 drmEnableFails running).2.log.count Event.getLinkStatus =
      running.log.count Event.getLinkStatus + 0 :=
  runHdcp_enable_failure cfg20 drmEnableFails running 0 (by decide) rfl (fun _ => rfl)
    (by decide) (by decide) (by decide)

/-! ## C8: the value of a second start -/

/-- C8, counterexample: a `startHdcp` whose wait times out returns false and leaves the
controller running; the next `startHdcp` returns true, not that false. -/
theorem second_start_differs_from_first :
    (start cfg20 drmDown (StartCall.sync true [-ETIMEDOUT] (-ETIMEDOUT)) init).1 = false ∧
    (start cfg20 drmDown (StartCall.sync true [-ETIMEDOUT] (-ETIMEDOUT)) init).2.ctl.mStopped
      = false ∧
    (start cfg20 drmDown (StartCall.sync true [] 0)
      (start cfg20 drmDown (StartCall.sync true [-ETIMEDOUT] (-ETIMEDOUT)) init).2).1 = true := by
  decide

/-- C8, amended: when a start call leaves the controller running and is followed by an
accepted start call for which the backend reports HDCP supported, the second call
returns true, whatever the first returned, and changes no field. -/
theorem start_while_running_returns_true (cfg : Config) (env : Drm) (c1 c2 : StartCall)
    (w : World)
    (hrun : (start cfg env c1 w).2.ctl.mStopped = false)
    (hr : (env.queryHdcp ((start cfg env c1 w).2.log.count Event.queryHdcp)).1 = 0)
    (hc : (env.queryHdcp ((start cfg env c1 w).2.log.count Event.queryHdcp)).2 ≠ 0)
    (hv : c2.accepted) :
    (start cfg env c2 (start cfg env c1 w).2).1 = true ∧
    (start cfg env c2 (start cfg env c1 w).2).2.ctl = (start cfg env c1 w).2.ctl ∧
    (start cfg env c2 (start cfg env c1 w).2).2.log =
      (start cfg env c1 w).2.log ++ [Event.queryHdcp] := by
  generalize (start cfg env c1 w).2 = w1 at hrun hr hc ⊢
  cases c2 with
  | sync alloc cycles err =>
    simp [start, startHdcp_running cfg env alloc w1 hrun hr hc]
  | async propLen propVal alloc cb userData =>
    obtain ⟨hp, hcb, hud⟩ := hv
    simp [start, startHdcpAsync_running cfg env propLen propVal alloc cb userData w1 hrun hp hcb
      hud hr hc]

/-- C8, witness: the second start after a start that timed out. -/
theorem second_start_witness :
    (start cfg20 drmDown (StartCall.sync true [] 0)
      (start cfg20 drmDown (StartCall.sync true [-ETIMEDOUT] (-ETIMEDOUT)) init).2).1 = true ∧
    (start cfg20 drmDown (StartCall.sync true [] 0)
      (start cfg20 drmDown (StartCall.sync true [-ETIMEDOUT] (-ETIMEDOUT)) init).2).2.ctl =
      (start cfg20 drmDown (StartCall.sync true [-ETIMEDOUT] (-ETIMEDOUT)) init).2.ctl ∧
    (start cfg20 drmDown (StartCall.sync true [] 0)
      (start cfg20 drmDown (StartCall.sync true [-ETIMEDOUT] (-ETIMEDOUT)) init).2).2.log =
      (start cfg20 drmDown (StartCall.sync true [-ETIMEDOUT] (-ETIMEDOUT)) init).2.log
        ++ [Event.queryHdcp] :=
  start_while_running_returns_true cfg20 drmDown
    (StartCall.sync true [-ETIMEDOUT] (-ETIMEDOUT)) (StartCall.sync true [] 0) init
    (by decide) rfl (by decide) trivial

/-! ## C9: start when already running -/

/-- C9: on a state with stopped = false and a backend reporting HDCP supported, `startHdcp`
returns true, and so does `startHdcpAsync` with the switch on and non-null callback and
user data; every field is unchanged and the only event is the capability query. -/
theorem start_noop_when_running (cfg : Config) (env : Drm) (w : World)
    (hs : w.ctl.mStopped = false)
    (hr : (env.queryHdcp (w.log.count Event.queryHdcp)).1 = 0)
    (hc : (env.queryHdcp (w.log.count Event.queryHdcp)).2 ≠ 0) :
    (∀ alloc : Bool,
      (startHdcp cfg env alloc w).1 = StartOutcome.returned true ∧
      (startHdcp cfg env alloc w).2.ctl = w.ctl ∧
      (startHdcp cfg env alloc w).2.log = w.log ++ [Event.queryHdcp]) ∧
    (∀ (propLen propVal : Int) (alloc : Bool) (cb userData : Ptr),
      ¬ (propLen > 0 ∧ propVal = 0) → cb ≠ NULL → userData ≠ NULL →
      (startHdcpAsync cfg env propLen propVal alloc cb userData w).1 = true ∧
      (startHdcpAsync cfg env propLen propVal alloc cb userData w).2.ctl = w.ctl ∧
      (startHdcpAsync cfg env propLen propVal alloc cb userData w).2.log =
        w.log ++ [Event.queryHdcp]) := by
  constructor
  · intro alloc
    simp [startHdcp_running cfg env alloc w hs hr hc]
  · intro propLen propVal alloc cb userData hp hcb hud
    simp [startHdcpAsync_running cfg env propLen propVal alloc cb userData w hs hp hcb hud hr hc]

/-- C9, witness: both entry points on a running controller with a registered callback. -/
theorem start_noop_witness :
    ((startHdcp cfg20 drmDown true verifiedAsync).1 = StartOutcome.returned true ∧
      (startHdcp cfg20 drmDown true verifiedAsync).2.ctl = verifiedAsync.ctl ∧
      (startHdcp cfg20 drmDown true verifiedAsync).2.log =
        verifiedAsync.log ++ [Event.queryHdcp]) ∧
    ((startHdcpAsync cfg20 drmDown 1 1 true 11 13 verifiedAsync).1 = true ∧
      (startHdcpAsync cfg20 drmDown 1 1 true 11 13 verifiedAsync).2.ctl = verifiedAsync.ctl ∧
      (startHdcpAsync cfg20 drmDown 1 1 true 11 13 verifiedAsync).2.log =
        verifiedAsync.log ++ [Event.queryHdcp]) :=
  ⟨(start_noop_when_running cfg20 drmDown verifiedAsync rfl rfl (by decide)).1 true,
   (start_noop_when_running cfg20 drmDown verifiedAsync rfl rfl (by decide)).2 1 1 true 11 13
     (by decide) (by decide) (by decide)⟩

/-! ## C10: stop -/

/-- C10: on a state with stopped = false, whatever the disable command returns, `stopHdcp`
returns true, signals the stop condition, issues exactly one disable command and no
other backend command, joins the worker if there is one, and leaves stopped = true,
authenticated = false, waiting = false, callback = NULL and user data = NULL. -/
theorem stopHdcp_postcondition (env : Drm) (w : World) (hs : w.ctl.mStopped = false) :
    (stopHdcp env w).1 = true ∧
    (stopHdcp env w).2.log =
      w.log ++ [Event.signalStopped, Event.disableHdcp] ++
        (if w.ctl.mThread ≠ ThreadRef.null then [Event.requestExitAndWait] else []) ∧
    (stopHdcp env w).2.ctl.mStopped = true ∧
    (stopHdcp env w).2.ctl.mAuthenticated = false ∧
    (stopHdcp env w).2.ctl.mWaitForCompletion = false ∧
    (stopHdcp env w).2.ctl.mCallback = NULL ∧
    (stopHdcp env w).2.ctl.mUserData = NULL := by
  by_cases ht : w.ctl.mThread = ThreadRef.null <;>
    by_cases hd : env.disableHdcp (w.log.count Event.disableHdcp) = 0 <;>
    simp [stopHdcp, disableAuthentication, emit, hs, ht, hd]

/-- C10, witness: stopping a running controller with a registered callback. -/
theorem stop_postcondition_witness :
    (stopHdcp drmDown verifiedAsync).1 = true ∧
    (stopHdcp drmDown verifiedAsync).2.log =
      verifiedAsync.log ++ [Event.signalStopped, Event.disableHdcp] ++
        (if verifiedAsync.ctl.mThread ≠ ThreadRef.null then [Event.requestExitAndWait]
         else []) ∧
    (stopHdcp drmDown verifiedAsync).2.ctl.mStopped = true ∧
    (stopHdcp drmDown verifiedAsync).2.ctl.mAuthenticated = false ∧
    (stopHdcp drmDown verifiedAsync).2.ctl.mWaitForCompletion = false ∧
    (stopHdcp drmDown verifiedAsync).2.ctl.mCallback = NULL ∧
    (stopHdcp drmDown verifiedAsync).2.ctl.mUserData = NULL :=
  stopHdcp_postcondition drmDown verifiedAsync rfl

/-! ## What the retry loop leaves alone -/

/-- Nothing changed is framed. -/
theorem frame_refl (cfg : Config) (w : World) : Frame cfg w w :=
  ⟨rfl, rfl, rfl, rfl, rfl, [], by simp, by simp⟩

/-- Frames compose. -/
theorem frame_trans {cfg : Config} {w w1 w2 : World} (h1 : Frame cfg w w1)
    (h2 : Frame cfg w1 w2) : Frame cfg w w2 := by
  obtain ⟨a1, a2, a3, a4, a5, l1, a6, a7⟩ := h1
  obtain ⟨b1, b2, b3, b4, b5, l2, b6, b7⟩ := h2
  refine ⟨b1.trans a1, b2.trans a2, b3.trans a3, b4.trans a4, b5.trans a5, l1 ++ l2, ?_, ?_⟩
  · rw [b6, a6, List.append_assoc]
  · intro e he
    rcases List.mem_append.mp he with h | h
    · exact a7 e h
    · exact b7 e h

/-- A read of `mStopped` is framed. -/
theorem frame_observeStop (cfg : Config) (env : Drm) (w : World) :
    Frame cfg w (observeStop env w) :=
  ⟨rfl, rfl, rfl, rfl, rfl, [], by simp [Hdcp.observeStop], by simp⟩

/-- The enable command is framed. -/
theorem frame_enableAuthentication (cfg : Config) (env : Drm) (w : World) :
    Frame cfg w (enableAuthentication env w).2 := by
  by_cases h : env.enableHdcp (w.log.count Event.enableHdcp) = 0 <;>
    exact ⟨by simp [Hdcp.enableAuthentication, emit, h],
      by simp [Hdcp.enableAuthentication, emit, h],
      by simp [Hdcp.enableAuthentication, emit, h], by simp [Hdcp.enableAuthentication, emit, h],
      by simp [Hdcp.enableAuthentication, emit, h], [Event.enableHdcp],
      by simp [Hdcp.enableAuthentication, emit, h], by simp [Event.isRetry]⟩

/-- The link-status query is framed. -/
theorem frame_checkAuthenticated (cfg : Config) (env : Drm) (w : World) :
    Frame cfg w (checkAuthenticated env w).2 := by
  by_cases h : (env.getLinkStatus (w.log.count Event.getLinkStatus)).1 = 0 <;>
    by_cases h2 : (env.getLinkStatus (w.log.count Event.getLinkStatus)).2 = 0 <;>
    exact ⟨by simp [Hdcp.checkAuthenticated, emit, h, h2],
      by simp [Hdcp.checkAuthenticated, emit, h, h2],
      by simp [Hdcp.checkAuthenticated, emit, h, h2],
      by simp [Hdcp.checkAuthenticated, emit, h, h2],
      by simp [Hdcp.checkAuthenticated, emit, h, h2], [Event.getLinkStatus],
      by simp [Hdcp.checkAuthenticated, emit, h, h2], by simp [Event.isRetry]⟩

/-- The settling sleep is framed. -/
theorem frame_usleep (cfg : Config) (w : World) :
    Frame cfg w (emit (Event.usleep cfg.HDCP_INLOOP_RETRY_DELAY_US) w) :=
  ⟨rfl, rfl, rfl, rfl, rfl, [Event.usleep cfg.HDCP_INLOOP_RETRY_DELAY_US], by simp [emit],
    by simp [Event.isRetry]⟩

/-- The retry loop is framed. -/
theorem frame_runHdcpLoop (cfg : Config) (env : Drm) (n : Nat) (w : World) :
    Frame cfg w (runHdcpLoop cfg env n w).2 := by
  induction n generalizing w with
  | zero => exact frame_refl cfg w
  | succ n ih =>
    have f1 := frame_observeStop cfg env w
    have f2 := frame_trans f1 (frame_enableAuthentication cfg env (Hdcp.observeStop env w))
    have f3 := frame_trans f2
      (frame_checkAuthenticated cfg env (Hdcp.enableAuthentication env (Hdcp.observeStop env w)).2)
    have f4 := frame_trans f3 (frame_observeStop cfg env
      (Hdcp.checkAuthenticated env (Hdcp.enableAuthentication env (Hdcp.observeStop env w)).2).2)
    have f5 := frame_trans f4 (frame_usleep cfg _)
    simp only [Hdcp.runHdcpLoop]
    split_ifs
    · exact f1
    · exact f2
    · exact f3
    · exact f4
    · exact frame_trans f5 (ih _)

/-- The whole of `runHdcp` is framed. -/
theorem frame_runHdcp (cfg : Config) (env : Drm) (w : World) :
    Frame cfg w (runHdcp cfg env w).2 := by
  rw [runHdcp_eq]
  exact frame_runHdcpLoop cfg env _ w

/-- On a stopped controller the retry loop changes nothing. -/
theorem runHdcpLoop_stopped_state (cfg : Config) (env : Drm) (n : Nat) (w : World)
    (hs : w.ctl.mStopped = true) : (runHdcpLoop cfg env n w).2 = w := by
  cases n with
  | zero => rfl
  | succ n => rw [runHdcpLoop_stopped cfg env n w hs]

/-- With no stop raised the retry loop leaves `mStopped` as it found it. -/
theorem runHdcpLoop_mStopped (cfg : Config) (env : Drm) (n : Nat) (w : World)
    (hq : ∀ t, env.stopRaised t = false) :
    (runHdcpLoop cfg env n w).2.ctl.mStopped = w.ctl.mStopped := by
  induction n generalizing w with
  | zero => rfl
  | succ n ih =>
    have e1 : ∀ v : World, (enableAuthentication env v).2.ctl = v.ctl := by
      intro v
      by_cases h : env.enableHdcp (v.log.count Event.enableHdcp) = 0 <;>
        simp [enableAuthentication, emit, h]
    have e2 : ∀ v : World, (checkAuthenticated env v).2.ctl.mStopped = v.ctl.mStopped := by
      intro v
      by_cases h : (env.getLinkStatus (v.log.count Event.getLinkStatus)).1 = 0 <;>
        by_cases h2 : (env.getLinkStatus (v.log.count Event.getLinkStatus)).2 = 0 <;>
        simp [checkAuthenticated, emit, h, h2]
    simp only [runHdcpLoop, observeStop_quiet env _ (hq _)]
    split_ifs
    · rfl
    · rw [e1]
    · rw [e2, e1]
    · rw [e2, e1]
    · rw [ih]
      simp only [emit]
      rw [e2, e1]

/-- Starting from `mAuthenticated = false`, the retry loop returns `mAuthenticated`
unless it was cut short: a raised flag means the loop returned true. -/
theorem runHdcpLoop_authenticated_ret (cfg : Config) (env : Drm) (n : Nat) (w : World)
    (ha : w.ctl.mAuthenticated = false)
    (h : (runHdcpLoop cfg env n w).2.ctl.mAuthenticated = true) :
    (runHdcpLoop cfg env n w).1 = true := by
  induction n generalizing w with
  | zero => rfl
  | succ n ih =>
    have e0 : (observeStop env w).ctl.mAuthenticated = false := by simpa [observeStop] using ha
    have e1 : ∀ v : World, (enableAuthentication env v).2.ctl = v.ctl := by
      intro v
      by_cases h : env.enableHdcp (v.log.count Event.enableHdcp) = 0 <;>
        simp [enableAuthentication, emit, h]
    have e2 : ∀ v : World, v.ctl.mAuthenticated = false →
        (checkAuthenticated env v).2.ctl.mAuthenticated = (checkAuthenticated env v).1 := by
      intro v hv
      by_cases h : (env.getLinkStatus (v.log.count Event.getLinkStatus)).1 = 0 <;>
        by_cases h2 : (env.getLinkStatus (v.log.count Event.getLinkStatus)).2 = 0 <;>
        simp [checkAuthenticated, emit, h, h2, hv]
    have e3 := e2 (enableAuthentication env (observeStop env w)).2 (by rw [e1]; exact e0)
    simp only [runHdcpLoop] at h ⊢
    split_ifs at h ⊢ with c1 c2 c3 c4
    · rw [e0] at h; exact absurd h (by simp)
    · rw [e1, e0] at h; exact absurd h (by simp)
    · rfl
    · have : (observeStop env (checkAuthenticated env
          (enableAuthentication env (observeStop env w)).2).2).ctl.mAuthenticated =
          (checkAuthenticated env
            (enableAuthentication env (observeStop env w)).2).2.ctl.mAuthenticated := by
        simp [observeStop]
      rw [this, e3] at h
      exact absurd h c3
    · apply ih _ _ h
      show (checkAuthenticated env
        (enableAuthentication env (observeStop env w)).2).2.ctl.mAuthenticated = false
      rw [e3]
      simpa using c3

/-! ## The shape of one worker cycle -/

/-- A cycle whose wait does not time out: the wait, and the completion signal if a
caller is waiting; only `mWaitForCompletion` is written. -/
theorem threadLoop_interrupted (cfg : Config) (env : Drm) (err : Int) (w : World)
    (herr : err ≠ -ETIMEDOUT) :
    threadLoop cfg env err w =
      (false,
        { ctl := { w.ctl with mWaitForCompletion := false },
          log := w.log ++ [Event.waitStopped w.ctl.mActionDelay] ++
            (if w.ctl.mWaitForCompletion then [Event.signalCompleted] else []) }) := by
  obtain ⟨⟨cb, ud, wc, st, au, ad, th⟩, log⟩ := w
  cases wc <;> simp [threadLoop, herr, signalCompletion, emit]

/-- A cycle whose wait times out: the wait, retry events of the action, then the
completion signal if a caller waits and the action failed or the link is
authenticated, then the callback if one is registered. -/
theorem threadLoop_timeout (cfg : Config) (env : Drm) (w : World) :
    (threadLoop cfg env (-ETIMEDOUT) w).2.ctl.mCallback = w.ctl.mCallback ∧
    (threadLoop cfg env (-ETIMEDOUT) w).2.ctl.mUserData = w.ctl.mUserData ∧
    (threadLoop cfg env (-ETIMEDOUT) w).2.ctl.mThread = w.ctl.mThread ∧
    (threadLoop cfg env (-ETIMEDOUT) w).2.ctl.mWaitForCompletion =
      (w.ctl.mWaitForCompletion &&
        !(!(threadLoop cfg env (-ETIMEDOUT) w).1 ||
          (threadLoop cfg env (-ETIMEDOUT) w).2.ctl.mAuthenticated)) ∧
    (threadLoop cfg env (-ETIMEDOUT) w).2.ctl.mActionDelay =
      (if (threadLoop cfg env (-ETIMEDOUT) w).2.ctl.mAuthenticated
        then cfg.HDCP_VERIFICATION_DELAY_MS else cfg.HDCP_AUTHENTICATION_DELAY_MS) ∧
    ∃ l, (∀ e ∈ l, Event.isRetry cfg e = true) ∧
      (threadLoop cfg env (-ETIMEDOUT) w).2.log =
        w.log ++ [Event.waitStopped w.ctl.mActionDelay] ++ l ++
          (if w.ctl.mWaitForCompletion = true ∧
              ((threadLoop cfg env (-ETIMEDOUT) w).1 = false ∨
                (threadLoop cfg env (-ETIMEDOUT) w).2.ctl.mAuthenticated = true)
            then [Event.signalCompleted] else []) ++
          (if w.ctl.mCallback ≠ NULL
            then [Event.callback w.ctl.mCallback
                    (threadLoop cfg env (-ETIMEDOUT) w).2.ctl.mAuthenticated w.ctl.mUserData]
            else []) := by
  have F : Frame cfg (emit (Event.waitStopped w.ctl.mActionDelay) w)
      (if !(emit (Event.waitStopped w.ctl.mActionDelay) w).ctl.mAuthenticated
        then runHdcp cfg env (emit (Event.waitStopped w.ctl.mActionDelay) w)
        else (true, (checkAuthenticated env
          (emit (Event.waitStopped w.ctl.mActionDelay) w)).2)).2 := by
    split_ifs
    · exact frame_runHdcp cfg env _
    · exact frame_checkAuthenticated cfg env _
  have hu : threadLoop cfg env (-ETIMEDOUT) w =
      (let r := (if !(emit (Event.waitStopped w.ctl.mActionDelay) w).ctl.mAuthenticated
        then runHdcp cfg env (emit (Event.waitStopped w.ctl.mActionDelay) w)
        else (true, (checkAuthenticated env
          (emit (Event.waitStopped w.ctl.mActionDelay) w)).2))
       let ret := r.1
       let w := r.2
       let w :=
         if w.ctl.mAuthenticated then
           { w with ctl := { w.ctl with mActionDelay := cfg.HDCP_VERIFICATION_DELAY_MS } }
         else
           { w with ctl := { w.ctl with mActionDelay := cfg.HDCP_AUTHENTICATION_DELAY_MS } }
       let w := if !ret || w.ctl.mAuthenticated then signalCompletion w else w
       let w :=
         if w.ctl.mCallback ≠ NULL then
           emit (Event.callback w.ctl.mCallback w.ctl.mAuthenticated w.ctl.mUserData) w
         else w
       (ret, w)) := by
    simp [threadLoop]
  rw [hu]
  generalize (if !(emit (Event.waitStopped w.ctl.mActionDelay) w).ctl.mAuthenticated
        then runHdcp cfg env (emit (Event.waitStopped w.ctl.mActionDelay) w)
        else (true, (checkAuthenticated env
          (emit (Event.waitStopped w.ctl.mActionDelay) w)).2)) = r at F
  obtain ⟨ret, ⟨cb1, ud1, wc1, st1, au1, ad1, th1⟩, log1⟩ := r
  obtain ⟨f1, f2, f3, f4, f5, l, f6, f7⟩ := F
  simp only [emit] at f1 f2 f3 f4 f5 f6
  subst f1 f2 f3 f5 f6
  refine ⟨?_, ?_, ?_, ?_, ?_, l, f7, ?_⟩ <;>
    cases ret <;> cases au1 <;> cases hw : w.ctl.mWaitForCompletion <;>
    by_cases hc : w.ctl.mCallback = NULL <;>
    simp [signalCompletion, emit, hw, hc]

/-! ## C11: stop twice -/

/-- After `stopHdcp` the controller is stopped. -/
theorem stopHdcp_mStopped (env : Drm) (w : World) : (stopHdcp env w).2.ctl.mStopped = true := by
  by_cases hs : w.ctl.mStopped = true
  · simp [stopHdcp, hs]
  · by_cases ht : w.ctl.mThread = ThreadRef.null <;>
      by_cases hd : env.disableHdcp (w.log.count Event.disableHdcp) = 0 <;>
      simp [stopHdcp, disableAuthentication, emit, hs, ht, hd]

/-- C11: on a state with stopped = true `stopHdcp` returns true and changes nothing, the log
included, so no backend command is issued; hence for every state a second `stopHdcp` right
after a first returns true and leaves the state of the first. -/
theorem stopHdcp_idempotent (env : Drm) :
    (∀ w : World, w.ctl.mStopped = true → stopHdcp env w = (true, w)) ∧
    (∀ w : World, stopHdcp env (stopHdcp env w).2 = (true, (stopHdcp env w).2)) := by
  have h : ∀ w : World, w.ctl.mStopped = true → stopHdcp env w = (true, w) := by
    intro w hs
    simp [stopHdcp, hs]
  exact ⟨h, fun w => h _ (stopHdcp_mStopped env w)⟩

/-- C11, witness: a stopped controller, and two stops of a running one. -/
theorem stop_twice_witness :
    stopHdcp drmDown init = (true, init) ∧
    stopHdcp drmDown (stopHdcp drmDown verifiedAsync).2 =
      (true, (stopHdcp drmDown verifiedAsync).2) :=
  ⟨(stopHdcp_idempotent drmDown).1 init rfl, (stopHdcp_idempotent drmDown).2 verifiedAsync⟩

/-! ## C12: an unsupported link -/

/-- A failed capability query, or zero capabilities, reports no support. -/
theorem isHdcpSupported_false (env : Drm) (w : World)
    (hu : (env.queryHdcp (w.log.count Event.queryHdcp)).1 ≠ 0 ∨
          (env.queryHdcp (w.log.count Event.queryHdcp)).2 = 0) :
    isHdcpSupported env w = (false, { w with log := w.log ++ [Event.queryHdcp] }) := by
  by_cases hr : (env.queryHdcp (w.log.count Event.queryHdcp)).1 = 0
  · rcases hu with hu | hu
    · exact absurd hr hu
    · simp [isHdcpSupported, emit, hr, hu]
  · simp [isHdcpSupported, emit, hr]

/-- C12: when the capability query fails or returns zero capabilities, `startHdcp` returns
false and `startHdcpAsync` returns false; no field changes (stopped keeps its value, no
worker is created) and the log gains the capability query at most: `startHdcpAsync` does
not even query when its switch is off or an argument is null. -/
theorem start_unsupported_fails_fast (cfg : Config) (env : Drm) (w : World)
    (hu : (env.queryHdcp (w.log.count Event.queryHdcp)).1 ≠ 0 ∨
          (env.queryHdcp (w.log.count Event.queryHdcp)).2 = 0) :
    (∀ alloc : Bool,
      startHdcp cfg env alloc w =
        (StartOutcome.returned false, { w with log := w.log ++ [Event.queryHdcp] })) ∧
    (∀ (propLen propVal : Int) (alloc : Bool) (cb userData : Ptr),
      (startHdcpAsync cfg env propLen propVal alloc cb userData w).1 = false ∧
      (startHdcpAsync cfg env propLen propVal alloc cb userData w).2.ctl = w.ctl ∧
      (startHdcpAsync cfg env propLen propVal alloc cb userData w).2.log =
        (if (propLen > 0 ∧ propVal = 0) ∨ cb = NULL ∨ userData = NULL then w.log
         else w.log ++ [Event.queryHdcp])) := by
  constructor
  · intro alloc
    simp [startHdcp, isHdcpSupported_false env w hu]
  · intro propLen propVal alloc cb userData
    by_cases hp : propLen > 0 ∧ propVal = 0
    · simp [startHdcpAsync, hp]
    · by_cases hc : cb = NULL ∨ userData = NULL
      · simp [startHdcpAsync, hp, hc]
      · simp only [startHdcpAsync, if_neg hp, if_neg hc, isHdcpSupported_false env w hu]
        simp [hp, hc]

/-- C12, witness: both entry points on a backend that reports zero capabilities. -/
theorem start_unsupported_witness :
    (startHdcp cfg20 drmUnsupported true init =
        (StartOutcome.returned false, { init with log := init.log ++ [Event.queryHdcp] })) ∧
    ((startHdcpAsync cfg20 drmUnsupported 1 1 true 7 9 init).1
        = false ∧
      (startHdcpAsync cfg20 drmUnsupported 1 1 true 7 9 init).2.ctl
        = init.ctl ∧
      (startHdcpAsync cfg20 drmUnsupported 1 1 true 7 9 init).2.log
        = (if ((1 : Int) > 0 ∧ (1 : Int) = 0) ∨ (7 : Ptr) = NULL ∨ (9 : Ptr) = NULL
           then init.log else init.log ++ [Event.queryHdcp])) :=
  ⟨(start_unsupported_fails_fast cfg20 drmUnsupported init
      (Or.inr rfl)).1 true,
   (start_unsupported_fails_fast cfg20 drmUnsupported init
      (Or.inr rfl)).2 1 1 true 7 9⟩

/-! ## C13: the synchronous happy path -/

/-- C13: on a state with stopped = true, if the backend reports HDCP supported, the enable
command succeeds and the first link-status query reports a match, then `startHdcp` returns
true without reaching its wait, having logged the capability query, the creation of the
worker, one enable, one query and the start of the worker; it leaves stopped = false,
authenticated = true, waiting = false and the verification delay.  The worker object is
created (`alloc`), the retry budget is at least one and no stop is raised. -/
theorem startHdcp_happy_path (cfg : Config) (env : Drm) (w : World)
    (hN : 1 ≤ cfg.HDCP_INLOOP_RETRY_NUMBER)
    (hs : w.ctl.mStopped = true)
    (hr : (env.queryHdcp (w.log.count Event.queryHdcp)).1 = 0)
    (hc : (env.queryHdcp (w.log.count Event.queryHdcp)).2 ≠ 0)
    (hq : ∀ t, env.stopRaised t = false)
    (he : env.enableHdcp (w.log.count Event.enableHdcp) = 0)
    (hl : (env.getLinkStatus (w.log.count Event.getLinkStatus)).1 = 0)
    (hm : (env.getLinkStatus (w.log.count Event.getLinkStatus)).2 ≠ 0) :
    (startHdcp cfg env true w).1 = StartOutcome.returned true ∧
    (startHdcp cfg env true w).2.ctl =
      { w.ctl with mStopped := false, mAuthenticated := true, mWaitForCompletion := false,
                   mActionDelay := cfg.HDCP_VERIFICATION_DELAY_MS,
                   mThread := ThreadRef.running } ∧
    (startHdcp cfg env true w).2.log =
      w.log ++ [Event.queryHdcp, Event.newThread, Event.enableHdcp, Event.getLinkStatus,
        Event.runThread] := by
  obtain ⟨m, hm1⟩ : ∃ m, cfg.HDCP_INLOOP_RETRY_NUMBER = m + 1 :=
    ⟨cfg.HDCP_INLOOP_RETRY_NUMBER - 1, by omega⟩
  have hrun := runHdcpLoop_authenticated cfg env m
    { ctl := { w.ctl with mStopped := false, mAuthenticated := false,
                          mWaitForCompletion := false, mThread := ThreadRef.created },
      log := w.log ++ [Event.queryHdcp, Event.newThread] }
    rfl (hq _) (by simpa using he) (by simpa using hl) (by simpa using hm)
  simp [startHdcp, isHdcpSupported_true env w hr hc, hs, emit, runHdcp_eq, hm1, hrun]

/-- C13, witness: the first start of a fresh controller on a link that authenticates. -/
theorem happy_path_witness :
    (startHdcp cfg20 drmUp true init).1 = StartOutcome.returned true ∧
    (startHdcp cfg20 drmUp true init).2.ctl =
      { init.ctl with mStopped := false, mAuthenticated := true, mWaitForCompletion := false,
                      mActionDelay := cfg20.HDCP_VERIFICATION_DELAY_MS,
                      mThread := ThreadRef.running } ∧
    (startHdcp cfg20 drmUp true init).2.log =
      init.log ++ [Event.queryHdcp, Event.newThread, Event.enableHdcp, Event.getLinkStatus,
        Event.runThread] :=
  startHdcp_happy_path cfg20 drmUp init (by decide) rfl rfl (by decide) (fun _ => rfl) rfl rfl
    (by decide)

/-! ## C14: the asynchronous start -/

/-- A loop that is not stopped begins with the enable command. -/
theorem runHdcpLoop_starts_with_enable (cfg : Config) (env : Drm) (n : Nat) (w : World)
    (hs : w.ctl.mStopped = false) (h0 : env.stopRaised w.log.length = false) :
    ∃ l, (runHdcpLoop cfg env (n + 1) w).2.log = w.log ++ [Event.enableHdcp] ++ l := by
  have hE : (enableAuthentication env w).2.log = w.log ++ [Event.enableHdcp] := by
    by_cases h : env.enableHdcp (w.log.count Event.enableHdcp) = 0 <;>
      simp [enableAuthentication, emit, h]
  have f3 := frame_checkAuthenticated cfg env (enableAuthentication env w).2
  have f4 := frame_trans f3 (frame_observeStop cfg env
    (checkAuthenticated env (enableAuthentication env w).2).2)
  have f5 := frame_trans (frame_trans f4 (frame_usleep cfg _)) (frame_runHdcpLoop cfg env n _)
  simp only [runHdcpLoop, observeStop_quiet env w h0]
  split_ifs with c1
  · exact absurd c1 (by simp [hs])
  · exact ⟨[], by simp [hE]⟩
  · obtain ⟨_, _, _, _, _, l, hl, _⟩ := f3
    exact ⟨l, by rw [hl, hE]⟩
  · obtain ⟨_, _, _, _, _, l, hl, _⟩ := f4
    exact ⟨l, by rw [hl, hE]⟩
  · obtain ⟨_, _, _, _, _, l, hl, _⟩ := f5
    exact ⟨l, by rw [hl, hE]⟩

/-- A cycle that times out on a controller that is not authenticated logs the wait and
then all of `runHdcp`, before anything else. -/
theorem threadLoop_timeout_runs_runHdcp (cfg : Config) (env : Drm) (w : World)
    (ha : w.ctl.mAuthenticated = false) :
    ∃ t, (threadLoop cfg env (-ETIMEDOUT) w).2.log =
      (runHdcp cfg env
        { ctl := w.ctl, log := w.log ++ [Event.waitStopped w.ctl.mActionDelay] }).2.log ++ t := by
  simp only [threadLoop, emit, ha]
  generalize runHdcp cfg env
    { ctl := w.ctl, log := w.log ++ [Event.waitStopped w.ctl.mActionDelay] } = r
  obtain ⟨ret, ⟨cb1, ud1, wc1, st1, au1, ad1, th1⟩, log1⟩ := r
  cases ret <;> cases au1 <;> cases wc1 <;> by_cases hc : cb1 = NULL <;>
    simp [signalCompletion, emit, hc]

/-- C14: on a state with stopped = true, with the switch on, non-null callback and user
data and a backend reporting HDCP supported, `startHdcpAsync` returns true; its log gains
the capability query, the creation and the start of the worker and nothing else (no
enable, no query of the link, no callback); it leaves stopped = false, authenticated =
false, waiting = false, the given callback and user data and the asynchronous start delay.
The first enable command comes in the first worker cycle whose wait (of that delay) times
out; a cycle whose wait is interrupted logs the wait only. -/
theorem startHdcpAsync_defers_attempt (cfg : Config) (env : Drm) (propLen propVal : Int)
    (cb userData : Ptr) (w : World)
    (hs : w.ctl.mStopped = true)
    (hp : ¬ (propLen > 0 ∧ propVal = 0))
    (hcb : cb ≠ NULL) (hud : userData ≠ NULL)
    (hr : (env.queryHdcp (w.log.count Event.queryHdcp)).1 = 0)
    (hc : (env.queryHdcp (w.log.count Event.queryHdcp)).2 ≠ 0) :
    (startHdcpAsync cfg env propLen propVal true cb userData w).1 = true ∧
    (startHdcpAsync cfg env propLen propVal true cb userData w).2.ctl =
      { mCallback := cb, mUserData := userData, mWaitForCompletion := false,
        mStopped := false, mAuthenticated := false,
        mActionDelay := cfg.HDCP_ASYNC_START_DELAY_MS, mThread := ThreadRef.running } ∧
    (startHdcpAsync cfg env propLen propVal true cb userData w).2.log =
      w.log ++ [Event.queryHdcp, Event.newThread, Event.runThread] ∧
    (1 ≤ cfg.HDCP_INLOOP_RETRY_NUMBER → (∀ t, env.stopRaised t = false) →
      ∃ l, (threadLoop cfg env (-ETIMEDOUT)
          (startHdcpAsync cfg env propLen propVal true cb userData w).2).2.log =
        w.log ++ [Event.queryHdcp, Event.newThread, Event.runThread] ++
          [Event.waitStopped cfg.HDCP_ASYNC_START_DELAY_MS, Event.enableHdcp] ++ l) ∧
    (∀ err : Int, err ≠ -ETIMEDOUT →
      (threadLoop cfg env err
          (startHdcpAsync cfg env propLen propVal true cb userData w).2).2.log =
        w.log ++ [Event.queryHdcp, Event.newThread, Event.runThread] ++
          [Event.waitStopped cfg.HDCP_ASYNC_START_DELAY_MS]) := by
  have hst : startHdcpAsync cfg env propLen propVal true cb userData w =
      (true,
        { ctl := { mCallback := cb, mUserData := userData, mWaitForCompletion := false,
                   mStopped := false, mAuthenticated := false,
                   mActionDelay := cfg.HDCP_ASYNC_START_DELAY_MS,
                   mThread := ThreadRef.running },
          log := w.log ++ [Event.queryHdcp, Event.newThread, Event.runThread] }) := by
    simp only [startHdcpAsync, if_neg hp, isHdcpSupported_true env w hr hc]
    simp [hcb, hud, hs, emit]
  rw [hst]
  refine ⟨rfl, rfl, rfl, ?_, ?_⟩
  · intro hN hq
    obtain ⟨m, hm⟩ : ∃ m, cfg.HDCP_INLOOP_RETRY_NUMBER = m + 1 :=
      ⟨cfg.HDCP_INLOOP_RETRY_NUMBER - 1, by omega⟩
    obtain ⟨l, hl⟩ := runHdcpLoop_starts_with_enable cfg env m
      { ctl := { mCallback := cb, mUserData := userData, mWaitForCompletion := false,
                 mStopped := false, mAuthenticated := false,
                 mActionDelay := cfg.HDCP_ASYNC_START_DELAY_MS,
                 mThread := ThreadRef.running },
        log := w.log ++ [Event.queryHdcp, Event.newThread, Event.runThread] ++
          [Event.waitStopped cfg.HDCP_ASYNC_START_DELAY_MS] }
      rfl (hq _)
    obtain ⟨t, ht⟩ := threadLoop_timeout_runs_runHdcp cfg env
      { ctl := { mCallback := cb, mUserData := userData, mWaitForCompletion := false,
                 mStopped := false, mAuthenticated := false,
                 mActionDelay := cfg.HDCP_ASYNC_START_DELAY_MS,
                 mThread := ThreadRef.running },
        log := w.log ++ [Event.queryHdcp, Event.newThread, Event.runThread] } rfl
    refine ⟨l ++ t, ?_⟩
    rw [ht, runHdcp_eq, hm, hl]
    simp
  · intro err herr
    rw [threadLoop_interrupted cfg env err _ herr]
    simp

/-- C14, witness: the asynchronous start of a fresh controller and its first cycle. -/
theorem async_start_witness :
    (startHdcpAsync cfg20 drmDown 1 1 true 7 9 init).1 = true ∧
    (startHdcpAsync cfg20 drmDown 1 1 true 7 9 init).2.ctl =
      { mCallback := 7, mUserData := 9, mWaitForCompletion := false,
        mStopped := false, mAuthenticated := false,
        mActionDelay := cfg20.HDCP_ASYNC_START_DELAY_MS, mThread := ThreadRef.running } ∧
    (startHdcpAsync cfg20 drmDown 1 1 true 7 9 init).2.log =
      init.log ++ [Event.queryHdcp, Event.newThread, Event.runThread] ∧
    (∃ l, (threadLoop cfg20 drmDown (-ETIMEDOUT)
          (startHdcpAsync cfg20 drmDown 1 1 true 7 9 init).2).2.log =
        init.log ++ [Event.queryHdcp, Event.newThread, Event.runThread] ++
          [Event.waitStopped cfg20.HDCP_ASYNC_START_DELAY_MS, Event.enableHdcp] ++ l) ∧
    (threadLoop cfg20 drmDown 0 (startHdcpAsync cfg20 drmDown 1 1 true 7 9 init).2).2.log =
      init.log ++ [Event.queryHdcp, Event.newThread, Event.runThread] ++
        [Event.waitStopped cfg20.HDCP_ASYNC_START_DELAY_MS] :=
  ⟨(startHdcpAsync_defers_attempt cfg20 drmDown 1 1 7 9 init rfl (by decide) (by decide)
      (by decide) rfl (by decide)).1,
   (startHdcpAsync_defers_attempt cfg20 drmDown 1 1 7 9 init rfl (by decide) (by decide)
      (by decide) rfl (by decide)).2.1,
   (startHdcpAsync_defers_attempt cfg20 drmDown 1 1 7 9 init rfl (by decide) (by decide)
      (by decide) rfl (by decide)).2.2.1,
   (startHdcpAsync_defers_attempt cfg20 drmDown 1 1 7 9 init rfl (by decide) (by decide)
      (by decide) rfl (by decide)).2.2.2.1 (by decide) (fun _ => rfl),
   (startHdcpAsync_defers_attempt cfg20 drmDown 1 1 7 9 init rfl (by decide) (by decide)
      (by decide) rfl (by decide)).2.2.2.2 0 (by decide)⟩

/-! ## C15: the callback of a cycle -/

/-- Retry events are no callback invocations. -/
theorem callbacks_retry (cfg : Config) (l : List Event)
    (h : ∀ e ∈ l, Event.isRetry cfg e = true) : callbacks l = [] := by
  unfold callbacks
  rw [List.filter_eq_nil_iff]
  intro e he
  have := h e he
  cases e <;> simp_all [Event.isRetry, Event.isCallback]

/-- C15: a worker cycle whose wait times out on a state with a registered callback invokes
that callback exactly once, as the last act of the cycle, with the authenticated flag as the
action of the cycle left it and with the stored user data; a cycle whose wait is interrupted
invokes no callback; and a cycle with no registered callback invokes none. -/
theorem threadLoop_callback (cfg : Config) (env : Drm) (w : World) :
    (w.ctl.mCallback ≠ NULL →
      callbacks (threadLoop cfg env (-ETIMEDOUT) w).2.log =
        callbacks w.log ++
          [Event.callback w.ctl.mCallback
            (threadLoop cfg env (-ETIMEDOUT) w).2.ctl.mAuthenticated w.ctl.mUserData] ∧
      (threadLoop cfg env (-ETIMEDOUT) w).2.log.getLast? =
        some (Event.callback w.ctl.mCallback
          (threadLoop cfg env (-ETIMEDOUT) w).2.ctl.mAuthenticated w.ctl.mUserData)) ∧
    (∀ err : Int, err ≠ -ETIMEDOUT →
      callbacks (threadLoop cfg env err w).2.log = callbacks w.log) ∧
    (w.ctl.mCallback = NULL → ∀ err : Int,
      callbacks (threadLoop cfg env err w).2.log = callbacks w.log) := by
  obtain ⟨_, _, _, _, _, l, hl, hlog⟩ := threadLoop_timeout cfg env w
  have hcl := callbacks_retry cfg l hl
  have hint : ∀ err : Int, err ≠ -ETIMEDOUT →
      callbacks (threadLoop cfg env err w).2.log = callbacks w.log := by
    intro err herr
    rw [threadLoop_interrupted cfg env err w herr]
    cases w.ctl.mWaitForCompletion <;> simp [callbacks, Event.isCallback]
  refine ⟨?_, hint, ?_⟩
  · intro hcb
    rw [hlog]
    unfold callbacks at hcl ⊢
    rw [if_pos hcb]
    constructor
    · split_ifs <;> simp [hcl, Event.isCallback]
    · exact List.getLast?_concat _
  · intro hcb err
    by_cases herr : err = -ETIMEDOUT
    · subst herr
      rw [hlog, if_neg (not_not.mpr hcb)]
      unfold callbacks at hcl ⊢
      split_ifs <;> simp [hcl, Event.isCallback]
    · exact hint err herr

/-- C15, witness: a re-verification cycle with callback 7 and user data 9 registered, an
interrupted cycle, and a cycle without callback. -/
theorem callback_witness :
    (callbacks (threadLoop cfg20 drmUp (-ETIMEDOUT) verifiedAsync).2.log =
        callbacks verifiedAsync.log ++
          [Event.callback verifiedAsync.ctl.mCallback
            (threadLoop cfg20 drmUp (-ETIMEDOUT) verifiedAsync).2.ctl.mAuthenticated
            verifiedAsync.ctl.mUserData] ∧
      (threadLoop cfg20 drmUp (-ETIMEDOUT) verifiedAsync).2.log.getLast? =
        some (Event.callback verifiedAsync.ctl.mCallback
          (threadLoop cfg20 drmUp (-ETIMEDOUT) verifiedAsync).2.ctl.mAuthenticated
          verifiedAsync.ctl.mUserData)) ∧
    callbacks (threadLoop cfg20 drmUp 0 verifiedAsync).2.log = callbacks verifiedAsync.log ∧
    callbacks (threadLoop cfg20 drmUp (-ETIMEDOUT) running).2.log = callbacks running.log :=
  ⟨(threadLoop_callback cfg20 drmUp verifiedAsync).1 (by decide),
   (threadLoop_callback cfg20 drmUp verifiedAsync).2.1 0 (by decide),
   (threadLoop_callback cfg20 drmUp running).2.2 rfl (-ETIMEDOUT)⟩

/-! ## C20: the inline attempt fails -/

/-- C20: on a state with stopped = true and a backend reporting HDCP supported, if the
inline `runHdcp` of `startHdcp` returns false, then `startHdcp` returns false; after the
capability query and the creation of the worker its log holds retry events only, so the
worker is not run and the completion condition is not waited for; it leaves stopped = true,
authenticated = false, waiting = false, no worker, and callback, user data and action
delay as they were. -/
theorem startHdcp_rolls_back (cfg : Config) (env : Drm) (w : World)
    (hs : w.ctl.mStopped = true)
    (hr : (env.queryHdcp (w.log.count Event.queryHdcp)).1 = 0)
    (hc : (env.queryHdcp (w.log.count Event.queryHdcp)).2 ≠ 0)
    (hfail : (runHdcp cfg env
      { ctl := { w.ctl with mStopped := false, mAuthenticated := false,
                            mWaitForCompletion := false, mThread := ThreadRef.created },
        log := w.log ++ [Event.queryHdcp, Event.newThread] }).1 = false) :
    (startHdcp cfg env true w).1 = StartOutcome.returned false ∧
    (startHdcp cfg env true w).2.ctl.mStopped = true ∧
    (startHdcp cfg env true w).2.ctl.mAuthenticated = false ∧
    (startHdcp cfg env true w).2.ctl.mWaitForCompletion = false ∧
    (startHdcp cfg env true w).2.ctl.mThread = ThreadRef.null ∧
    (startHdcp cfg env true w).2.ctl.mCallback = w.ctl.mCallback ∧
    (startHdcp cfg env true w).2.ctl.mUserData = w.ctl.mUserData ∧
    (startHdcp cfg env true w).2.ctl.mActionDelay = w.ctl.mActionDelay ∧
    ∃ l, (startHdcp cfg env true w).2.log = w.log ++ [Event.queryHdcp, Event.newThread] ++ l ∧
      ∀ e ∈ l, Event.isRetry cfg e = true := by
  have hst : startHdcp cfg env true w =
      (StartOutcome.returned false,
        { ctl := { (runHdcp cfg env
            { ctl := { w.ctl with mStopped := false, mAuthenticated := false,
                                  mWaitForCompletion := false, mThread := ThreadRef.created },
              log := w.log ++ [Event.queryHdcp, Event.newThread] }).2.ctl with
              mStopped := true, mThread := ThreadRef.null },
          log := (runHdcp cfg env
            { ctl := { w.ctl with mStopped := false, mAuthenticated := false,
                                  mWaitForCompletion := false, mThread := ThreadRef.created },
              log := w.log ++ [Event.queryHdcp, Event.newThread] }).2.log }) := by
    simp [startHdcp, isHdcpSupported_true env w hr hc, hs, emit, hfail]
  have hau : (runHdcp cfg env
      { ctl := { w.ctl with mStopped := false, mAuthenticated := false,
                            mWaitForCompletion := false, mThread := ThreadRef.created },
        log := w.log ++ [Event.queryHdcp, Event.newThread] }).2.ctl.mAuthenticated = false := by
    by_contra hne
    have h1 := runHdcpLoop_authenticated_ret cfg env cfg.HDCP_INLOOP_RETRY_NUMBER _ rfl
      (by simpa [runHdcp_eq] using hne)
    rw [runHdcp_eq] at hfail
    rw [hfail] at h1
    exact absurd h1 (by simp)
  obtain ⟨f1, f2, f3, f4, f5, l, f6, f7⟩ := frame_runHdcp cfg env
    { ctl := { w.ctl with mStopped := false, mAuthenticated := false,
                          mWaitForCompletion := false, mThread := ThreadRef.created },
      log := w.log ++ [Event.queryHdcp, Event.newThread] }
  rw [hst]
  exact ⟨rfl, rfl, hau, f3, rfl, f1, f2, f4, l, f6, f7⟩

/-- C20, witness: the first enable command of the inline attempt fails. -/
theorem rolls_back_witness :
    (startHdcp cfg20 drmEnableFails true init).1 = StartOutcome.returned false ∧
    (startHdcp cfg20 drmEnableFails true init).2.ctl.mStopped = true ∧
    (startHdcp cfg20 drmEnableFails true init).2.ctl.mAuthenticated = false ∧
    (startHdcp cfg20 drmEnableFails true init).2.ctl.mWaitForCompletion = false ∧
    (startHdcp cfg20 drmEnableFails true init).2.ctl.mThread = ThreadRef.null ∧
    (startHdcp cfg20 drmEnableFails true init).2.ctl.mCallback = init.ctl.mCallback ∧
    (startHdcp cfg20 drmEnableFails true init).2.ctl.mUserData = init.ctl.mUserData ∧
    (startHdcp cfg20 drmEnableFails true init).2.ctl.mActionDelay = init.ctl.mActionDelay ∧
    ∃ l, (startHdcp cfg20 drmEnableFails true init).2.log =
        init.log ++ [Event.queryHdcp, Event.newThread] ++ l ∧
      ∀ e ∈ l, Event.isRetry cfg20 e = true :=
  startHdcp_rolls_back cfg20 drmEnableFails init rfl rfl (by decide) (by decide)

/-! ## What each call does to the fields -/

/-- The action of a cycle is framed. -/
theorem frame_cycleAction (cfg : Config) (env : Drm) (w : World) :
    Frame cfg w (cycleAction cfg env w).2 := by
  unfold cycleAction
  split_ifs
  · exact frame_runHdcp cfg env w
  · exact frame_checkAuthenticated cfg env w

/-- With no stop raised the action of a cycle leaves `mStopped` as it found it. -/
theorem cycleAction_mStopped (cfg : Config) (env : Drm) (w : World)
    (hq : ∀ t, env.stopRaised t = false) :
    (cycleAction cfg env w).2.ctl.mStopped = w.ctl.mStopped := by
  unfold cycleAction
  split_ifs
  · rw [runHdcp_eq]
    exact runHdcpLoop_mStopped cfg env _ w hq
  · by_cases h : (env.getLinkStatus (w.log.count Event.getLinkStatus)).1 = 0 <;>
      by_cases h2 : (env.getLinkStatus (w.log.count Event.getLinkStatus)).2 = 0 <;>
      simp [checkAuthenticated, emit, h, h2]

/-- On a stopped controller that is not authenticated the action changes nothing. -/
theorem cycleAction_stopped (cfg : Config) (env : Drm) (w : World)
    (hs : w.ctl.mStopped = true) (ha : w.ctl.mAuthenticated = false) :
    (cycleAction cfg env w).2 = w := by
  unfold cycleAction
  rw [if_pos (by simp [ha]), runHdcp_eq]
  exact runHdcpLoop_stopped_state cfg env _ w hs

/-- A cycle whose wait times out returns what its action returned and keeps the
`mStopped` and `mAuthenticated` its action left. -/
theorem threadLoop_timeout_action (cfg : Config) (env : Drm) (w : World) :
    (threadLoop cfg env (-ETIMEDOUT) w).1 =
      (cycleAction cfg env (emit (Event.waitStopped w.ctl.mActionDelay) w)).1 ∧
    (threadLoop cfg env (-ETIMEDOUT) w).2.ctl.mStopped =
      (cycleAction cfg env (emit (Event.waitStopped w.ctl.mActionDelay) w)).2.ctl.mStopped ∧
    (threadLoop cfg env (-ETIMEDOUT) w).2.ctl.mAuthenticated =
      (cycleAction cfg env
        (emit (Event.waitStopped w.ctl.mActionDelay) w)).2.ctl.mAuthenticated := by
  have hu : threadLoop cfg env (-ETIMEDOUT) w =
      (let r := cycleAction cfg env (emit (Event.waitStopped w.ctl.mActionDelay) w)
       let ret := r.1
       let w := r.2
       let w :=
         if w.ctl.mAuthenticated then
           { w with ctl := { w.ctl with mActionDelay := cfg.HDCP_VERIFICATION_DELAY_MS } }
         else
           { w with ctl := { w.ctl with mActionDelay := cfg.HDCP_AUTHENTICATION_DELAY_MS } }
       let w := if !ret || w.ctl.mAuthenticated then signalCompletion w else w
       let w :=
         if w.ctl.mCallback ≠ NULL then
           emit (Event.callback w.ctl.mCallback w.ctl.mAuthenticated w.ctl.mUserData) w
         else w
       (ret, w)) := by
    simp [threadLoop, cycleAction]
  rw [hu]
  generalize cycleAction cfg env (emit (Event.waitStopped w.ctl.mActionDelay) w) = r
  obtain ⟨ret, ⟨cb1, ud1, wc1, st1, au1, ad1, th1⟩, log1⟩ := r
  refine ⟨rfl, ?_, ?_⟩ <;>
    cases ret <;> cases au1 <;> cases wc1 <;> by_cases hc : cb1 = NULL <;>
    simp [signalCompletion, emit, hc]

/-- With no stop raised a worker cycle leaves `mStopped` as it found it. -/
theorem threadLoop_mStopped (cfg : Config) (env : Drm) (err : Int) (w : World)
    (hq : ∀ t, env.stopRaised t = false) :
    (threadLoop cfg env err w).2.ctl.mStopped = w.ctl.mStopped := by
  by_cases herr : err = -ETIMEDOUT
  · subst herr
    rw [(threadLoop_timeout_action cfg env w).2.1, cycleAction_mStopped cfg env _ hq]
    rfl
  · rw [threadLoop_interrupted cfg env err w herr]

/-- A worker cycle on a stopped controller that is not authenticated leaves it so. -/
theorem threadLoop_stopped_mAuthenticated (cfg : Config) (env : Drm) (err : Int) (w : World)
    (hs : w.ctl.mStopped = true) (ha : w.ctl.mAuthenticated = false) :
    (threadLoop cfg env err w).2.ctl.mAuthenticated = false := by
  by_cases herr : err = -ETIMEDOUT
  · subst herr
    rw [(threadLoop_timeout_action cfg env w).2.2,
      cycleAction_stopped cfg env _ (by simpa [emit] using hs) (by simpa [emit] using ha)]
    simpa [emit] using ha
  · rw [threadLoop_interrupted cfg env err w herr]
    exact ha

/-- What `startHdcp` does to the fields: nothing, or it found the controller stopped,
kept callback and user data, and if it leaves the controller stopped then also not waited
for and not authenticated. -/
theorem startHdcp_fields (cfg : Config) (env : Drm) (alloc : Bool) (w : World)
    (hq : ∀ t, env.stopRaised t = false) :
    (startHdcp cfg env alloc w).2.ctl = w.ctl ∨
    (w.ctl.mStopped = true ∧
      (startHdcp cfg env alloc w).2.ctl.mCallback = w.ctl.mCallback ∧
      (startHdcp cfg env alloc w).2.ctl.mUserData = w.ctl.mUserData ∧
      ((startHdcp cfg env alloc w).2.ctl.mStopped = true →
        (startHdcp cfg env alloc w).2.ctl.mWaitForCompletion = false ∧
        (startHdcp cfg env alloc w).2.ctl.mAuthenticated = false)) := by
  by_cases hsup : (env.queryHdcp (w.log.count Event.queryHdcp)).1 = 0 ∧
      (env.queryHdcp (w.log.count Event.queryHdcp)).2 ≠ 0
  · by_cases hs : w.ctl.mStopped = true
    · right
      refine ⟨hs, ?_⟩
      cases alloc with
      | false => simp [startHdcp, isHdcpSupported_true env w hsup.1 hsup.2, hs, emit]
      | true =>
        have F := frame_runHdcp cfg env
          { ctl := { w.ctl with mStopped := false, mAuthenticated := false,
                                mWaitForCompletion := false, mThread := ThreadRef.created },
            log := w.log ++ [Event.queryHdcp, Event.newThread] }
        have hst : (runHdcp cfg env
          { ctl := { w.ctl with mStopped := false, mAuthenticated := false,
                                mWaitForCompletion := false, mThread := ThreadRef.created },
            log := w.log ++ [Event.queryHdcp, Event.newThread] }).2.ctl.mStopped = false := by
          rw [runHdcp_eq, runHdcpLoop_mStopped cfg env _ _ hq]
        have hau : (runHdcp cfg env
          { ctl := { w.ctl with mStopped := false, mAuthenticated := false,
                                mWaitForCompletion := false, mThread := ThreadRef.created },
            log := w.log ++ [Event.queryHdcp, Event.newThread] }).2.ctl.mAuthenticated = true →
          (runHdcp cfg env
          { ctl := { w.ctl with mStopped := false, mAuthenticated := false,
                                mWaitForCompletion := false, mThread := ThreadRef.created },
            log := w.log ++ [Event.queryHdcp, Event.newThread] }).1 = true := by
          rw [runHdcp_eq]
          exact runHdcpLoop_authenticated_ret cfg env _ _ rfl
        simp only [startHdcp, isHdcpSupported_true env w hsup.1 hsup.2, emit, hs,
          List.append_assoc, List.cons_append, List.nil_append, ↓reduceIte, Bool.not_true,
          Bool.false_eq_true]
        generalize runHdcp cfg env
          { ctl := { w.ctl with mStopped := false, mAuthenticated := false,
                                mWaitForCompletion := false, mThread := ThreadRef.created },
            log := w.log ++ [Event.queryHdcp, Event.newThread] } = r at F hst hau ⊢
        obtain ⟨ret, ⟨cb1, ud1, wc1, st1, au1, ad1, th1⟩, log1⟩ := r
        obtain ⟨f1, f2, f3, f4, f5, l, f6, f7⟩ := F
        simp only at f1 f2 f3 hst hau
        subst f1 f2 f3 hst
        cases ret <;> cases au1 <;> simp_all
    · left
      simp [startHdcp, isHdcpSupported_true env w hsup.1 hsup.2, hs]
  · left
    have hu : (env.queryHdcp (w.log.count Event.queryHdcp)).1 ≠ 0 ∨
        (env.queryHdcp (w.log.count Event.queryHdcp)).2 = 0 := by
      by_cases h1 : (env.queryHdcp (w.log.count Event.queryHdcp)).1 = 0
      · right
        by_contra h2
        exact hsup ⟨h1, h2⟩
      · exact Or.inl h1
    simp [startHdcp, isHdcpSupported_false env w hu]

/-- What `startHdcpAsync` does to the fields: it leaves the five flags and pointers, or it
found the controller stopped and leaves it running with callback and user data set. -/
theorem startHdcpAsync_fields (cfg : Config) (env : Drm) (propLen propVal : Int) (alloc : Bool)
    (cb userData : Ptr) (w : World) :
    ((startHdcpAsync cfg env propLen propVal alloc cb userData w).2.ctl.mCallback
        = w.ctl.mCallback ∧
      (startHdcpAsync cfg env propLen propVal alloc cb userData w).2.ctl.mUserData
        = w.ctl.mUserData ∧
      (startHdcpAsync cfg env propLen propVal alloc cb userData w).2.ctl.mStopped
        = w.ctl.mStopped ∧
      (startHdcpAsync cfg env propLen propVal alloc cb userData w).2.ctl.mAuthenticated
        = w.ctl.mAuthenticated ∧
      (startHdcpAsync cfg env propLen propVal alloc cb userData w).2.ctl.mWaitForCompletion
        = w.ctl.mWaitForCompletion) ∨
    (w.ctl.mStopped = true ∧
      (startHdcpAsync cfg env propLen propVal alloc cb userData w).2.ctl.mStopped = false ∧
      (startHdcpAsync cfg env propLen propVal alloc cb userData w).2.ctl.mCallback ≠ NULL ∧
      (startHdcpAsync cfg env propLen propVal alloc cb userData w).2.ctl.mUserData ≠ NULL) := by
  by_cases hp : propLen > 0 ∧ propVal = 0
  · left; simp [startHdcpAsync, hp]
  · by_cases hc : cb = NULL ∨ userData = NULL
    · left; simp [startHdcpAsync, hp, hc]
    · by_cases hsup : (env.queryHdcp (w.log.count Event.queryHdcp)).1 = 0 ∧
          (env.queryHdcp (w.log.count Event.queryHdcp)).2 ≠ 0
      · by_cases hs : w.ctl.mStopped = true
        · cases alloc with
          | false =>
            left
            simp only [startHdcpAsync, if_neg hp, if_neg hc,
              isHdcpSupported_true env w hsup.1 hsup.2]
            simp [hs, emit]
          | true =>
            right
            simp only [startHdcpAsync, if_neg hp, if_neg hc,
              isHdcpSupported_true env w hsup.1 hsup.2]
            have hc2 := not_or.mp hc
            simp [hs, emit, hc2.1, hc2.2]
        · left
          simp only [startHdcpAsync, if_neg hp, if_neg hc,
            isHdcpSupported_true env w hsup.1 hsup.2]
          simp [hs]
      · left
        have hu : (env.queryHdcp (w.log.count Event.queryHdcp)).1 ≠ 0 ∨
            (env.queryHdcp (w.log.count Event.queryHdcp)).2 = 0 := by
          by_cases h1 : (env.queryHdcp (w.log.count Event.queryHdcp)).1 = 0
          · right
            by_contra h2
            exact hsup ⟨h1, h2⟩
          · exact Or.inl h1
        simp only [startHdcpAsync, if_neg hp, if_neg hc, isHdcpSupported_false env w hu]
        simp

/-- What `stopHdcp` leaves on a running controller. -/
theorem stopHdcp_fields (env : Drm) (w : World) (hs : w.ctl.mStopped = false) :
    (stopHdcp env w).2.ctl.mStopped = true ∧
    (stopHdcp env w).2.ctl.mWaitForCompletion = false ∧
    (stopHdcp env w).2.ctl.mAuthenticated = false ∧
    (stopHdcp env w).2.ctl.mCallback = NULL ∧
    (stopHdcp env w).2.ctl.mUserData = NULL := by
  by_cases ht : w.ctl.mThread = ThreadRef.null <;>
    by_cases hd : env.disableHdcp (w.log.count Event.disableHdcp) = 0 <;>
    simp [stopHdcp, disableAuthentication, emit, hs, ht, hd]

/-- A call that keeps callback and user data, can leave the controller stopped only if it
found it stopped, and then leaves it neither waited for nor authenticated, keeps the
state consistent. -/
theorem consistent_keep (cfg : Config) (env : Drm) (s : Step) (m : StartedBy) (w : World)
    (h : Consistent (m, w))
    (hcb : (step cfg env s w).ctl.mCallback = w.ctl.mCallback)
    (hud : (step cfg env s w).ctl.mUserData = w.ctl.mUserData)
    (hst : (step cfg env s w).ctl.mStopped = true → w.ctl.mStopped = true)
    (hwa : (step cfg env s w).ctl.mStopped = true →
      (step cfg env s w).ctl.mWaitForCompletion = false ∧
      (step cfg env s w).ctl.mAuthenticated = false) :
    Consistent (startedBy cfg env s m w, step cfg env s w) := by
  obtain ⟨h1, h2, h3⟩ := h
  refine ⟨?_, ?_, ?_⟩
  · intro hs
    exact ⟨(hwa hs).1, (hwa hs).2, by rw [hcb]; exact (h1 (hst hs)).2.2⟩
  · show (step cfg env s w).ctl.mCallback = NULL ↔ (step cfg env s w).ctl.mUserData = NULL
    rw [hcb, hud]
    exact h2
  · intro hne
    have hne2 : w.ctl.mCallback ≠ NULL := by
      intro hh
      exact hne (by show (step cfg env s w).ctl.mCallback = NULL; rw [hcb]; exact hh)
    have hm : m = StartedBy.startHdcpAsync := h3 hne2
    have hws : w.ctl.mStopped = false := by
      cases hh : w.ctl.mStopped with
      | false => rfl
      | true => exact absurd (h1 hh).2.2 hne2
    have hss : (step cfg env s w).ctl.mStopped = false := by
      cases hh : (step cfg env s w).ctl.mStopped with
      | false => rfl
      | true => rw [hst hh] at hws; exact absurd hws (by simp)
    show startedBy cfg env s m w = StartedBy.startHdcpAsync
    simp [startedBy, hss, hws, hm]

/-- Every call keeps the state consistent, when no stop is raised inside `runHdcp`. -/
theorem consistent_step (cfg : Config) (env : Drm) (hq : ∀ t, env.stopRaised t = false)
    (s : Step) (m : StartedBy) (w : World) (h : Consistent (m, w)) :
    Consistent (startedBy cfg env s m w, step cfg env s w) := by
  have h1 := h.1
  cases s with
  | startHdcp alloc =>
    rcases startHdcp_fields cfg env alloc w hq with hl | ⟨hs, hcb, hud, hwa⟩
    · have e : (step cfg env (Step.startHdcp alloc) w).ctl = w.ctl := hl
      apply consistent_keep cfg env (Step.startHdcp alloc) m w h
      · rw [e]
      · rw [e]
      · rw [e]; exact id
      · rw [e]; intro hs; exact ⟨(h1 hs).1, (h1 hs).2.1⟩
    · exact consistent_keep cfg env (Step.startHdcp alloc) m w h hcb hud (fun _ => hs) hwa
  | startHdcpResume err =>
    apply consistent_keep cfg env (Step.startHdcpResume err) m w h rfl rfl (fun hs => hs)
    intro hs
    exact ⟨rfl, (h1 hs).2.1⟩
  | startHdcpAsync propLen propVal alloc cb userData =>
    rcases startHdcpAsync_fields cfg env propLen propVal alloc cb userData w with
      ⟨e1, e2, e3, e4, e5⟩ | ⟨hs, hs2, hcb, hud⟩
    · apply consistent_keep cfg env (Step.startHdcpAsync propLen propVal alloc cb userData) m w h
        e1 e2
      · intro hs; rw [← e3]; exact hs
      · intro hs
        have hs0 : w.ctl.mStopped = true := by rw [← e3]; exact hs
        exact ⟨e5.trans (h1 hs0).1, e4.trans (h1 hs0).2.1⟩
    · refine ⟨?_, ?_, ?_⟩
      · intro hh
        have : (step cfg env (Step.startHdcpAsync propLen propVal alloc cb userData)
            w).ctl.mStopped = false := hs2
        rw [this] at hh
        exact absurd hh (by simp)
      · exact ⟨fun hh => absurd hh hcb, fun hh => absurd hh hud⟩
      · intro _
        have : (step cfg env (Step.startHdcpAsync propLen propVal alloc cb userData)
            w).ctl.mStopped = false := hs2
        show startedBy cfg env _ m w = StartedBy.startHdcpAsync
        simp [startedBy, this, hs]
  | stopHdcp =>
    cases hs : w.ctl.mStopped with
    | true =>
      have e : (step cfg env Step.stopHdcp w) = w := by
        show (stopHdcp env w).2 = w
        simp [stopHdcp, hs]
      apply consistent_keep cfg env Step.stopHdcp m w h
      · rw [e]
      · rw [e]
      · rw [e]; exact id
      · rw [e]; intro hs; exact ⟨(h1 hs).1, (h1 hs).2.1⟩
    | false =>
      obtain ⟨a1, a2, a3, a4, a5⟩ := stopHdcp_fields env w hs
      exact ⟨fun _ => ⟨a2, a3, a4⟩, ⟨fun _ => a5, fun _ => a4⟩,
        fun hne => absurd a4 hne⟩
  | threadLoop err =>
    have est : (step cfg env (Step.threadLoop err) w).ctl.mStopped = w.ctl.mStopped :=
      threadLoop_mStopped cfg env err w hq
    have ecb : (step cfg env (Step.threadLoop err) w).ctl.mCallback = w.ctl.mCallback ∧
        (step cfg env (Step.threadLoop err) w).ctl.mUserData = w.ctl.mUserData ∧
        ((step cfg env (Step.threadLoop err) w).ctl.mWaitForCompletion = true →
          w.ctl.mWaitForCompletion = true) := by
      show (threadLoop cfg env err w).2.ctl.mCallback = w.ctl.mCallback ∧
        (threadLoop cfg env err w).2.ctl.mUserData = w.ctl.mUserData ∧
        ((threadLoop cfg env err w).2.ctl.mWaitForCompletion = true →
          w.ctl.mWaitForCompletion = true)
      by_cases herr : err = -ETIMEDOUT
      · subst herr
        obtain ⟨t1, t2, _, t4, _⟩ := threadLoop_timeout cfg env w
        refine ⟨t1, t2, ?_⟩
        rw [t4]
        intro hh
        simp at hh
        exact hh.1
      · rw [threadLoop_interrupted cfg env err w herr]
        simp
    apply consistent_keep cfg env (Step.threadLoop err) m w h ecb.1 ecb.2.1
    · rw [est]; exact id
    · intro hs
      have hs0 : w.ctl.mStopped = true := by rw [← est]; exact hs
      refine ⟨?_, threadLoop_stopped_mAuthenticated cfg env err w hs0 (h1 hs0).2.1⟩
      cases hh : (step cfg env (Step.threadLoop err) w).ctl.mWaitForCompletion with
      | false => rfl
      | true => exact absurd (ecb.2.2 hh) (by rw [(h1 hs0).1]; simp)

/-- The constructor leaves a consistent state. -/
theorem consistent_init : Consistent (StartedBy.nobody, init) :=
  ⟨fun _ => ⟨rfl, rfl, rfl⟩, ⟨fun _ => rfl, fun _ => rfl⟩, fun h => absurd rfl h⟩

/-- Every sequence of calls keeps the state consistent. -/
theorem consistent_exec (cfg : Config) (env : Drm) (hq : ∀ t, env.stopRaised t = false)
    (steps : List Step) (x : StartedBy × World) (h : Consistent x) :
    Consistent (exec cfg env steps x) := by
  induction steps generalizing x with
  | nil => exact h
  | cons s rest ih => exact ih _ (consistent_step cfg env hq s x.1 x.2 h)

/-- Sequences of calls compose. -/
theorem exec_append (cfg : Config) (env : Drm) (a b : List Step) (x : StartedBy × World) :
    exec cfg env (a ++ b) x = exec cfg env b (exec cfg env a x) := by
  induction a generalizing x with
  | nil => rfl
  | cons s rest ih => exact ih _

/-! ## C16: after stop -/

/-- With a retry budget of at least one, a worker cycle on a stopped controller that is
neither authenticated nor waited for and has no callback logs its wait and nothing else,
writes at most the action delay, and returns false. -/
theorem threadLoop_after_stop (cfg : Config) (env : Drm) (err : Int) (w : World)
    (hN : 1 ≤ cfg.HDCP_INLOOP_RETRY_NUMBER)
    (hs : w.ctl.mStopped = true) (ha : w.ctl.mAuthenticated = false)
    (hw : w.ctl.mWaitForCompletion = false) (hc : w.ctl.mCallback = NULL) :
    threadLoop cfg env err w =
      (false,
        { ctl := { w.ctl with mActionDelay :=
                    if err = -ETIMEDOUT then cfg.HDCP_AUTHENTICATION_DELAY_MS
                    else w.ctl.mActionDelay },
          log := w.log ++ [Event.waitStopped w.ctl.mActionDelay] }) := by
  obtain ⟨⟨cb, ud, wc, st, au, ad, th⟩, log⟩ := w
  simp only at hs ha hw hc
  subst hs ha hw hc
  by_cases herr : err = -ETIMEDOUT
  · subst herr
    obtain ⟨m, hm⟩ : ∃ m, cfg.HDCP_INLOOP_RETRY_NUMBER = m + 1 :=
      ⟨cfg.HDCP_INLOOP_RETRY_NUMBER - 1, by omega⟩
    have h1 := runHdcpLoop_stopped cfg env m
      { ctl := { mCallback := NULL, mUserData := ud, mWaitForCompletion := false,
                 mStopped := true, mAuthenticated := false, mActionDelay := ad, mThread := th },
        log := log ++ [Event.waitStopped ad] } rfl
    simp [threadLoop, runHdcp_eq, hm, h1, emit, signalCompletion]
  · rw [threadLoop_interrupted cfg env err _ herr]
    simp [herr]

/-- Worker cycles after a stop log waits only. -/
theorem exec_cycles_after_stop (cfg : Config) (env : Drm)
    (hN : 1 ≤ cfg.HDCP_INLOOP_RETRY_NUMBER) (errs : List Int) (m : StartedBy) (w : World)
    (hs : w.ctl.mStopped = true) (ha : w.ctl.mAuthenticated = false)
    (hw : w.ctl.mWaitForCompletion = false) (hc : w.ctl.mCallback = NULL) :
    ∃ l, (exec cfg env (errs.map Step.threadLoop) (m, w)).2.log = w.log ++ l ∧
      ∀ e ∈ l, ∃ ms, e = Event.waitStopped ms := by
  induction errs generalizing m w with
  | nil => exact ⟨[], by simp [exec], by simp⟩
  | cons err rest ih =>
    have h1 := threadLoop_after_stop cfg env err w hN hs ha hw hc
    have e : step cfg env (Step.threadLoop err) w =
        { ctl := { w.ctl with mActionDelay :=
                    if err = -ETIMEDOUT then cfg.HDCP_AUTHENTICATION_DELAY_MS
                    else w.ctl.mActionDelay },
          log := w.log ++ [Event.waitStopped w.ctl.mActionDelay] } := by
      show (threadLoop cfg env err w).2 = _
      rw [h1]
    obtain ⟨l, hl, hl2⟩ := ih (startedBy cfg env (Step.threadLoop err) m w)
      (step cfg env (Step.threadLoop err) w)
      (by rw [e]; exact hs) (by rw [e]; exact ha) (by rw [e]; exact hw) (by rw [e]; exact hc)
    refine ⟨Event.waitStopped w.ctl.mActionDelay :: l, ?_, ?_⟩
    · show (exec cfg env (rest.map Step.threadLoop)
        (startedBy cfg env (Step.threadLoop err) m w, step cfg env (Step.threadLoop err) w)).2.log
          = _
      rw [hl, e]
      simp
    · intro ev hev
      rcases List.mem_cons.mp hev with h | h
      · exact ⟨_, h⟩
      · exact hl2 ev h

/-- After `stopHdcp`, a consistent state is stopped, not authenticated, not waited for and
without callback. -/
theorem stopHdcp_clean (env : Drm) (x : StartedBy × World) (h : Consistent x) :
    (stopHdcp env x.2).2.ctl.mStopped = true ∧
    (stopHdcp env x.2).2.ctl.mAuthenticated = false ∧
    (stopHdcp env x.2).2.ctl.mWaitForCompletion = false ∧
    (stopHdcp env x.2).2.ctl.mCallback = NULL := by
  cases hs : x.2.ctl.mStopped with
  | true =>
    have e : (stopHdcp env x.2).2 = x.2 := by simp [stopHdcp, hs]
    rw [e]
    exact ⟨hs, (h.1 hs).2.1, (h.1 hs).1, (h.1 hs).2.2⟩
  | false =>
    obtain ⟨a1, a2, a3, a4, _⟩ := stopHdcp_fields env x.2 hs
    exact ⟨a1, a3, a2, a4⟩

/-- C16: with a retry budget N >= 1, in the state produced by `stopHdcp` a worker cycle,
whatever the status of its wait, returns false and logs its wait and nothing else: no
backend command and no callback.  This holds after a stop of any running state and after
a stop of any state the controller can reach (no stop being raised inside `runHdcp`); and
in every sequence calls, stop, cycles the log after the stop gains waits only, so its
callback invocations are those made before the stop. -/
theorem no_worker_activity_after_stop (cfg : Config) (env : Drm)
    (hN : 1 ≤ cfg.HDCP_INLOOP_RETRY_NUMBER) :
    (∀ (w : World) (err : Int), w.ctl.mStopped = false →
      (threadLoop cfg env err (stopHdcp env w).2).1 = false ∧
      (threadLoop cfg env err (stopHdcp env w).2).2.log =
        (stopHdcp env w).2.log ++ [Event.waitStopped (stopHdcp env w).2.ctl.mActionDelay]) ∧
    ((∀ t, env.stopRaised t = false) → ∀ (steps : List Step) (err : Int),
      (threadLoop cfg env err
        (stopHdcp env (exec cfg env steps (StartedBy.nobody, init)).2).2).1 = false ∧
      (threadLoop cfg env err
        (stopHdcp env (exec cfg env steps (StartedBy.nobody, init)).2).2).2.log =
        (stopHdcp env (exec cfg env steps (StartedBy.nobody, init)).2).2.log ++
          [Event.waitStopped
            (stopHdcp env (exec cfg env steps (StartedBy.nobody, init)).2).2.ctl.mActionDelay]) ∧
    ((∀ t, env.stopRaised t = false) → ∀ (steps : List Step) (errs : List Int),
      (∃ l, (exec cfg env (steps ++ Step.stopHdcp :: errs.map Step.threadLoop)
            (StartedBy.nobody, init)).2.log =
          (exec cfg env (steps ++ [Step.stopHdcp]) (StartedBy.nobody, init)).2.log ++ l ∧
        ∀ e ∈ l, ∃ ms, e = Event.waitStopped ms) ∧
      callbacks (exec cfg env (steps ++ Step.stopHdcp :: errs.map Step.threadLoop)
          (StartedBy.nobody, init)).2.log =
        callbacks (exec cfg env (steps ++ [Step.stopHdcp]) (StartedBy.nobody, init)).2.log) := by
  refine ⟨?_, ?_, ?_⟩
  · intro w err hs
    obtain ⟨a1, a2, a3, a4, _⟩ := stopHdcp_fields env w hs
    rw [threadLoop_after_stop cfg env err _ hN a1 a3 a2 a4]
    exact ⟨rfl, rfl⟩
  · intro hq steps err
    obtain ⟨a1, a2, a3, a4⟩ := stopHdcp_clean env _
      (consistent_exec cfg env hq steps _ consistent_init)
    rw [threadLoop_after_stop cfg env err _ hN a1 a2 a3 a4]
    exact ⟨rfl, rfl⟩
  · intro hq steps errs
    have hc := consistent_exec cfg env hq steps _ consistent_init
    obtain ⟨a1, a2, a3, a4⟩ := stopHdcp_clean env _ hc
    have e1 : exec cfg env (steps ++ [Step.stopHdcp]) (StartedBy.nobody, init) =
        (startedBy cfg env Step.stopHdcp (exec cfg env steps (StartedBy.nobody, init)).1
            (exec cfg env steps (StartedBy.nobody, init)).2,
          (stopHdcp env (exec cfg env steps (StartedBy.nobody, init)).2).2) := by
      rw [exec_append]
      rfl
    have e2 : exec cfg env (steps ++ Step.stopHdcp :: errs.map Step.threadLoop)
          (StartedBy.nobody, init) =
        exec cfg env (errs.map Step.threadLoop)
          (exec cfg env (steps ++ [Step.stopHdcp]) (StartedBy.nobody, init)) := by
      rw [← exec_append]
      simp
    obtain ⟨l, hl, hl2⟩ := exec_cycles_after_stop cfg env hN errs
      (startedBy cfg env Step.stopHdcp (exec cfg env steps (StartedBy.nobody, init)).1
        (exec cfg env steps (StartedBy.nobody, init)).2)
      (stopHdcp env (exec cfg env steps (StartedBy.nobody, init)).2).2 a1 a2 a3 a4
    rw [e2, e1]
    refine ⟨⟨l, hl, hl2⟩, ?_⟩
    rw [hl]
    unfold callbacks
    rw [List.filter_append]
    have : List.filter Event.isCallback l = [] := by
      rw [List.filter_eq_nil_iff]
      intro e he
      obtain ⟨ms, hms⟩ := hl2 e he
      subst hms
      simp [Event.isCallback]
    rw [this, List.append_nil]

/-- C16, witness: a stop of a running controller, a stop after an asynchronous start and
one cycle, and two cycles after that stop. -/
theorem after_stop_witness :
    ((threadLoop cfg20 drmDown (-ETIMEDOUT) (stopHdcp drmDown verifiedAsync).2).1 = false ∧
      (threadLoop cfg20 drmDown (-ETIMEDOUT) (stopHdcp drmDown verifiedAsync).2).2.log =
        (stopHdcp drmDown verifiedAsync).2.log ++
          [Event.waitStopped (stopHdcp drmDown verifiedAsync).2.ctl.mActionDelay]) ∧
    ((threadLoop cfg20 drmDown 0
        (stopHdcp drmDown
          (exec cfg20 drmDown asyncThenCycle (StartedBy.nobody, init)).2).2).1 = false ∧
      (threadLoop cfg20 drmDown 0
        (stopHdcp drmDown
          (exec cfg20 drmDown asyncThenCycle (StartedBy.nobody, init)).2).2).2.log =
        (stopHdcp drmDown (exec cfg20 drmDown asyncThenCycle (StartedBy.nobody, init)).2).2.log
          ++ [Event.waitStopped
            (stopHdcp drmDown
              (exec cfg20 drmDown asyncThenCycle
                (StartedBy.nobody, init)).2).2.ctl.mActionDelay]) ∧
    ((∃ l, (exec cfg20 drmDown
            (asyncThenCycle ++ Step.stopHdcp :: [-ETIMEDOUT, 0].map Step.threadLoop)
            (StartedBy.nobody, init)).2.log =
          (exec cfg20 drmDown (asyncThenCycle ++ [Step.stopHdcp])
            (StartedBy.nobody, init)).2.log ++ l ∧
        ∀ e ∈ l, ∃ ms, e = Event.waitStopped ms) ∧
      callbacks (exec cfg20 drmDown
          (asyncThenCycle ++ Step.stopHdcp :: [-ETIMEDOUT, 0].map Step.threadLoop)
          (StartedBy.nobody, init)).2.log =
        callbacks (exec cfg20 drmDown (asyncThenCycle ++ [Step.stopHdcp])
          (StartedBy.nobody, init)).2.log) :=
  ⟨(no_worker_activity_after_stop cfg20 drmDown (by decide)).1 verifiedAsync (-ETIMEDOUT) rfl,
   (no_worker_activity_after_stop cfg20 drmDown (by decide)).2.1 (fun _ => rfl)
     asyncThenCycle 0,
   (no_worker_activity_after_stop cfg20 drmDown (by decide)).2.2 (fun _ => rfl)
     asyncThenCycle [-ETIMEDOUT, 0]⟩

/-! ## C17: the invariant of the state -/

/-- C17: in every state reached from the constructor by calls of `startHdcp` (up to its
wait), the rest of `startHdcp` after the wait, `startHdcpAsync`, `stopHdcp` and worker
cycles, in any order and with any arguments and backend answers (each call under the
mutex, so that no stop is raised inside `runHdcp`): stopped = true implies waiting = false;
callback and user data are both null or both non-null; and a non-null callback implies
that the controller is running and was started by `startHdcpAsync`. -/
theorem state_invariant (cfg : Config) (env : Drm) (hq : ∀ t, env.stopRaised t = false)
    (steps : List Step) :
    ((exec cfg env steps (StartedBy.nobody, init)).2.ctl.mStopped = true →
      (exec cfg env steps (StartedBy.nobody, init)).2.ctl.mWaitForCompletion = false) ∧
    ((exec cfg env steps (StartedBy.nobody, init)).2.ctl.mCallback = NULL ↔
      (exec cfg env steps (StartedBy.nobody, init)).2.ctl.mUserData = NULL) ∧
    ((exec cfg env steps (StartedBy.nobody, init)).2.ctl.mCallback ≠ NULL →
      (exec cfg env steps (StartedBy.nobody, init)).2.ctl.mStopped = false ∧
      (exec cfg env steps (StartedBy.nobody, init)).1 = StartedBy.startHdcpAsync) := by
  obtain ⟨h1, h2, h3⟩ := consistent_exec cfg env hq steps _ consistent_init
  refine ⟨fun hs => (h1 hs).1, h2, fun hne => ⟨?_, h3 hne⟩⟩
  cases hs : (exec cfg env steps (StartedBy.nobody, init)).2.ctl.mStopped with
  | false => rfl
  | true => exact absurd (h1 hs).2.2 hne

/-- C17, witness: the invariant after an asynchronous start and one worker cycle. -/
theorem invariant_witness :
    ((exec cfg20 drmDown asyncThenCycle (StartedBy.nobody, init)).2.ctl.mStopped = true →
      (exec cfg20 drmDown asyncThenCycle (StartedBy.nobody, init)).2.ctl.mWaitForCompletion
        = false) ∧
    ((exec cfg20 drmDown asyncThenCycle (StartedBy.nobody, init)).2.ctl.mCallback = NULL ↔
      (exec cfg20 drmDown asyncThenCycle (StartedBy.nobody, init)).2.ctl.mUserData = NULL) ∧
    ((exec cfg20 drmDown asyncThenCycle (StartedBy.nobody, init)).2.ctl.mCallback ≠ NULL →
      (exec cfg20 drmDown asyncThenCycle (StartedBy.nobody, init)).2.ctl.mStopped = false ∧
      (exec cfg20 drmDown asyncThenCycle (StartedBy.nobody, init)).1
        = StartedBy.startHdcpAsync) :=
  state_invariant cfg20 drmDown (fun _ => rfl) asyncThenCycle

/-! ## C19: the completion signal -/

/-- Retry events are no completion signals. -/
theorem count_signalCompleted_retry (cfg : Config) (l : List Event)
    (h : ∀ e ∈ l, Event.isRetry cfg e = true) : l.count Event.signalCompleted = 0 := by
  rw [List.count_eq_zero]
  intro hm
  have := h _ hm
  simp [Event.isRetry] at this

/-- The completion signals of one worker cycle: one, if a caller is waited for and the
wait was interrupted, the action returned false or the link is authenticated; none
otherwise. -/
theorem threadLoop_count_signalCompleted (cfg : Config) (env : Drm) (err : Int) (w : World) :
    (threadLoop cfg env err w).2.log.count Event.signalCompleted =
      w.log.count Event.signalCompleted +
        (if w.ctl.mWaitForCompletion = true ∧
            (err ≠ -ETIMEDOUT ∨ (threadLoop cfg env err w).1 = false ∨
              (threadLoop cfg env err w).2.ctl.mAuthenticated = true)
          then 1 else 0) := by
  by_cases herr : err = -ETIMEDOUT
  · subst herr
    obtain ⟨_, _, _, _, _, l, hl, hlog⟩ := threadLoop_timeout cfg env w
    have hc := count_signalCompleted_retry cfg l hl
    rw [hlog]
    by_cases hcb : w.ctl.mCallback = NULL <;>
      by_cases hcond : w.ctl.mWaitForCompletion = true ∧
        ((threadLoop cfg env (-ETIMEDOUT) w).1 = false ∨
          (threadLoop cfg env (-ETIMEDOUT) w).2.ctl.mAuthenticated = true) <;>
      simp [List.count_append, hc, hcb, hcond]
  · rw [threadLoop_interrupted cfg env err w herr]
    cases hw : w.ctl.mWaitForCompletion <;> simp [List.count_append, herr]

/-- A worker cycle never sets `mWaitForCompletion`, and a cycle that leaves it set has
not signalled. -/
theorem threadLoop_still_waiting (cfg : Config) (env : Drm) (err : Int) (w : World)
    (h : (threadLoop cfg env err w).2.ctl.mWaitForCompletion = true) :
    w.ctl.mWaitForCompletion = true ∧
    (threadLoop cfg env err w).2.log.count Event.signalCompleted =
      w.log.count Event.signalCompleted := by
  rw [threadLoop_count_signalCompleted]
  by_cases herr : err = -ETIMEDOUT
  · subst herr
    obtain ⟨_, _, _, t4, _⟩ := threadLoop_timeout cfg env w
    rw [t4] at h
    simp at h
    obtain ⟨h1, h2, h3⟩ := h
    simp [h1, h2, h3]
  · rw [threadLoop_interrupted cfg env err w herr] at h
    simp at h

/-- A call that is no start never sets `mWaitForCompletion`, signals completion at most
once, and only if a caller was waited for; if it leaves the flag set it has not signalled. -/
theorem step_signalCompleted (cfg : Config) (env : Drm) (s : Step) (w : World)
    (hs : s.isStart = false) :
    ((step cfg env s w).ctl.mWaitForCompletion = true →
      w.ctl.mWaitForCompletion = true ∧
      (step cfg env s w).log.count Event.signalCompleted = w.log.count Event.signalCompleted) ∧
    (step cfg env s w).log.count Event.signalCompleted ≤
      w.log.count Event.signalCompleted + (if w.ctl.mWaitForCompletion = true then 1 else 0) := by
  cases s with
  | startHdcp alloc => simp [Step.isStart] at hs
  | startHdcpAsync propLen propVal alloc cb userData => simp [Step.isStart] at hs
  | startHdcpResume err =>
    constructor
    · intro h
      simp [step, startHdcpResume] at h
    · simp [step, startHdcpResume]
  | stopHdcp =>
    by_cases hst : w.ctl.mStopped = true
    · have e : step cfg env Step.stopHdcp w = w := by
        show (stopHdcp env w).2 = w
        simp [stopHdcp, hst]
      rw [e]
      exact ⟨fun h => ⟨h, rfl⟩, by omega⟩
    · have hst2 : w.ctl.mStopped = false := by simpa using hst
      have hw := (stopHdcp_fields env w hst2).2.1
      have hl : (stopHdcp env w).2.log.count Event.signalCompleted =
          w.log.count Event.signalCompleted := by
        by_cases ht : w.ctl.mThread = ThreadRef.null <;>
          by_cases hd : env.disableHdcp (w.log.count Event.disableHdcp) = 0 <;>
          simp [stopHdcp, disableAuthentication, emit, hst2, ht, hd, List.count_append]
      constructor
      · intro h
        have h2 : (stopHdcp env w).2.ctl.mWaitForCompletion = true := h
        rw [hw] at h2
        exact absurd h2 (by simp)
      · show (stopHdcp env w).2.log.count Event.signalCompleted ≤ _
        rw [hl]
        omega
  | threadLoop err =>
    constructor
    · exact threadLoop_still_waiting cfg env err w
    · show (threadLoop cfg env err w).2.log.count Event.signalCompleted ≤ _
      rw [threadLoop_count_signalCompleted]
      by_cases hw : w.ctl.mWaitForCompletion = true
      · simp only [hw, true_and, if_true]
        split_ifs <;> omega
      · simp [hw]

/-- C19: over every sequence of calls without a start (worker cycles, the rest of
`startHdcp`, stops), the completion condition is signalled at most once, and not at all
unless a caller is waited for at the beginning; a worker cycle signals exactly when a
caller is waited for and its wait was interrupted, its action returned false or the link
is authenticated; a cycle that leaves `mWaitForCompletion` set found it set and has not
signalled, so after the signal the flag is false and no cycle sets it again. -/
theorem completion_signalled_at_most_once (cfg : Config) (env : Drm) :
    (∀ (steps : List Step) (m : StartedBy) (w : World),
      (∀ s ∈ steps, s.isStart = false) →
      (exec cfg env steps (m, w)).2.log.count Event.signalCompleted ≤
        w.log.count Event.signalCompleted +
          (if w.ctl.mWaitForCompletion = true then 1 else 0)) ∧
    (∀ (w : World) (err : Int),
      (threadLoop cfg env err w).2.log.count Event.signalCompleted =
        w.log.count Event.signalCompleted +
          (if w.ctl.mWaitForCompletion = true ∧
              (err ≠ -ETIMEDOUT ∨ (threadLoop cfg env err w).1 = false ∨
                (threadLoop cfg env err w).2.ctl.mAuthenticated = true)
            then 1 else 0)) ∧
    (∀ (w : World) (err : Int),
      (threadLoop cfg env err w).2.ctl.mWaitForCompletion = true →
      w.ctl.mWaitForCompletion = true ∧
      (threadLoop cfg env err w).2.log.count Event.signalCompleted =
        w.log.count Event.signalCompleted) := by
  refine ⟨?_, fun w err => threadLoop_count_signalCompleted cfg env err w,
    fun w err => threadLoop_still_waiting cfg env err w⟩
  intro steps
  induction steps with
  | nil =>
    intro m w _
    show w.log.count Event.signalCompleted ≤ _
    omega
  | cons s rest ih =>
    intro m w hall
    have hs := hall s (List.mem_cons_self _ _)
    have hrest := ih (startedBy cfg env s m w) (step cfg env s w)
      (fun t ht => hall t (List.mem_cons_of_mem _ ht))
    obtain ⟨p1, p2⟩ := step_signalCompleted cfg env s w hs
    show (exec cfg env rest (startedBy cfg env s m w, step cfg env s w)).2.log.count
      Event.signalCompleted ≤ _
    by_cases hw : (step cfg env s w).ctl.mWaitForCompletion = true
    · obtain ⟨q1, q2⟩ := p1 hw
      rw [if_pos hw, q2] at hrest
      rw [if_pos q1]
      exact hrest
    · rw [if_neg hw] at hrest
      omega

/-- C19, witness: two worker cycles and a stop on a controller that is waited for, on a
link that authenticates. -/
theorem completion_witness :
    (exec cfg20 drmUp [Step.threadLoop (-ETIMEDOUT), Step.threadLoop (-ETIMEDOUT),
        Step.stopHdcp] (StartedBy.startHdcp, awaited)).2.log.count Event.signalCompleted ≤
      awaited.log.count Event.signalCompleted +
        (if awaited.ctl.mWaitForCompletion = true then 1 else 0) ∧
    (threadLoop cfg20 drmUp (-ETIMEDOUT) awaited).2.log.count Event.signalCompleted =
      awaited.log.count Event.signalCompleted +
        (if awaited.ctl.mWaitForCompletion = true ∧
            (-ETIMEDOUT ≠ -ETIMEDOUT ∨
              (threadLoop cfg20 drmUp (-ETIMEDOUT) awaited).1 = false ∨
              (threadLoop cfg20 drmUp (-ETIMEDOUT) awaited).2.ctl.mAuthenticated = true)
          then 1 else 0) ∧
    (awaited.ctl.mWaitForCompletion = true ∧
      (threadLoop cfg20 drmDown (-ETIMEDOUT) awaited).2.log.count Event.signalCompleted =
        awaited.log.count Event.signalCompleted) :=
  ⟨(completion_signalled_at_most_once cfg20 drmUp).1 _ StartedBy.startHdcp awaited
      (by decide),
   (completion_signalled_at_most_once cfg20 drmUp).2.1 awaited (-ETIMEDOUT),
   (completion_signalled_at_most_once cfg20 drmDown).2.2 awaited (-ETIMEDOUT) (by decide)⟩

end Hdcp
